import Mathlib

/-!
Verification development for the robotframework-openapidriver sources.

The Python modules under src/OpenApiDriver are shallowly embedded below:
JSON-like values become the inductive type JVal, Python dicts become
association lists with Python dict semantics (insertion order, in-place
value update for an existing key, append for a new key), fallible code
returns Except String, and external effects (random choices, uuid4 values,
network fetches) become explicit oracle parameters.  Error strings are
abbreviated tags that keep the Python exception class of the original
raise site (AssertionError / KeyError / TypeError / AttributeError).
-/

/-- A JSON-like value as produced by json.loads.  Numbers are modelled as
integers; floating point values are out of scope of this embedding. -/
inductive JVal where
  | null
  | bool (b : Bool)
  | num (n : Int)
  | str (s : String)
  | arr (xs : List JVal)
  | obj (kvs : List (String × JVal))

mutual

/-- Structural equality test on JSON-like values. -/
def JVal.beq : JVal → JVal → Bool
  | .null, .null => true
  | .bool a, .bool b => a == b
  | .num a, .num b => a == b
  | .str a, .str b => a == b
  | .arr xs, .arr ys => JVal.beqList xs ys
  | .obj xs, .obj ys => JVal.beqObj xs ys
  | _, _ => false

/-- Structural equality test on lists of JSON-like values. -/
def JVal.beqList : List JVal → List JVal → Bool
  | [], [] => true
  | x :: xs, y :: ys => JVal.beq x y && JVal.beqList xs ys
  | _, _ => false

/-- Structural equality test on association lists of JSON-like values. -/
def JVal.beqObj : List (String × JVal) → List (String × JVal) → Bool
  | [], [] => true
  | (k1, v1) :: xs, (k2, v2) :: ys => k1 == k2 && JVal.beq v1 v2 && JVal.beqObj xs ys
  | _, _ => false

end

mutual

theorem JVal.eq_of_beq : ∀ {a b : JVal}, JVal.beq a b = true → a = b
  | .null, .null, _ => rfl
  | .bool a, .bool b, h => by simpa [JVal.beq] using h
  | .num a, .num b, h => by simpa [JVal.beq] using h
  | .str a, .str b, h => by simpa [JVal.beq] using h
  | .arr xs, .arr ys, h => by
    rw [@JVal.eqList_of_beqList xs ys (by simpa [JVal.beq] using h)]
  | .obj xs, .obj ys, h => by
    rw [@JVal.eqObj_of_beqObj xs ys (by simpa [JVal.beq] using h)]

theorem JVal.eqList_of_beqList : ∀ {xs ys : List JVal}, JVal.beqList xs ys = true → xs = ys
  | [], [], _ => rfl
  | x :: xs, y :: ys, h => by
    have h1 : JVal.beq x y = true ∧ JVal.beqList xs ys = true := by
      simpa [JVal.beqList, Bool.and_eq_true] using h
    rw [JVal.eq_of_beq h1.1, JVal.eqList_of_beqList h1.2]

theorem JVal.eqObj_of_beqObj :
    ∀ {xs ys : List (String × JVal)}, JVal.beqObj xs ys = true → xs = ys
  | [], [], _ => rfl
  | (k1, v1) :: xs, (k2, v2) :: ys, h => by
    have h1 : (k1 == k2) = true ∧ JVal.beq v1 v2 = true ∧ JVal.beqObj xs ys = true := by
      simpa [JVal.beqObj, Bool.and_eq_true, and_assoc] using h
    have hk : k1 = k2 := by simpa using h1.1
    rw [hk, JVal.eq_of_beq h1.2.1, JVal.eqObj_of_beqObj h1.2.2]

end

mutual

theorem JVal.beq_refl : ∀ (a : JVal), JVal.beq a a = true
  | .null => rfl
  | .bool a => by simp [JVal.beq]
  | .num a => by simp [JVal.beq]
  | .str a => by simp [JVal.beq]
  | .arr xs => by simpa [JVal.beq] using JVal.beqList_refl xs
  | .obj xs => by simpa [JVal.beq] using JVal.beqObj_refl xs

theorem JVal.beqList_refl : ∀ (xs : List JVal), JVal.beqList xs xs = true
  | [] => rfl
  | x :: xs => by simp [JVal.beqList, JVal.beq_refl x, JVal.beqList_refl xs]

theorem JVal.beqObj_refl : ∀ (xs : List (String × JVal)), JVal.beqObj xs xs = true
  | [] => rfl
  | (k, v) :: xs => by simp [JVal.beqObj, JVal.beq_refl v, JVal.beqObj_refl xs]

end

instance : DecidableEq JVal := fun a b =>
  if h : JVal.beq a b = true then
    .isTrue (JVal.eq_of_beq h)
  else
    .isFalse (fun hab => h (hab ▸ JVal.beq_refl a))

deriving instance DecidableEq for Except

/-- A Python dict with string keys and JSON-like values, in insertion order. -/
abbrev JObj := List (String × JVal)

/-- d.get(k) / d[k]: value of the first binding of k (Python dicts bind a
key at most once, so on that domain this is the unique binding). -/
def lookupKey (k : String) : JObj → Option JVal
  | [] => none
  | (k2, v) :: rest => if k2 = k then some v else lookupKey k rest

/-- k in d. -/
def hasKey (k : String) (kvs : JObj) : Bool :=
  (lookupKey k kvs).isSome

/-- d[k] = v: replace the value of an existing key in place (keeping its
position, as Python dicts do) or append a new binding at the end. -/
def setKey (k : String) (v : JVal) : JObj → JObj
  | [] => [(k, v)]
  | (k2, v2) :: rest => if k2 = k then (k, v) :: rest else (k2, v2) :: setKey k v rest

/-- Remove every binding of k (a Python dict holds at most one). -/
def removeKey (k : String) (kvs : JObj) : JObj :=
  kvs.filter (fun kv => kv.1 != k)

/-- d.pop(k, None) splits into the popped value and the remaining dict. -/
def popKey (k : String) (kvs : JObj) : Option JVal × JObj :=
  (lookupKey k kvs, removeKey k kvs)

/-- d1.update(d2): bindings of d2 override or extend d1, in order. -/
def dictUpdate (d1 d2 : JObj) : JObj :=
  d2.foldl (fun acc kv => setKey kv.1 kv.2 acc) d1

/-- Python truthiness of a JSON-like value. -/
def truthy : JVal → Bool
  | .null => false
  | .bool b => b
  | .num n => n != 0
  | .str s => s != ""
  | .arr xs => !xs.isEmpty
  | .obj kvs => !kvs.isEmpty

/-- Numeric view used by Python ==, under which True == 1 and False == 0. -/
def asNum : JVal → Option Int
  | .bool b => some (if b then 1 else 0)
  | .num n => some n
  | _ => none

mutual

/-- Python == on JSON-like values: numeric coercion between bool and int,
pointwise comparison for lists, order-insensitive comparison for dicts. -/
def pyEq : JVal → JVal → Bool
  | .arr xs, .arr ys => pyEqList xs ys
  | .obj xs, .obj ys => pyEqObj xs ys && xs.all (fun kv => hasKey kv.1 ys) && ys.all (fun kv => hasKey kv.1 xs)
  | .str a, .str b => a == b
  | .null, .null => true
  | a, b =>
    match asNum a, asNum b with
    | some n, some m => n == m
    | _, _ => false

/-- Pointwise Python == on two lists. -/
def pyEqList : List JVal → List JVal → Bool
  | [], [] => true
  | x :: xs, y :: ys => pyEq x y && pyEqList xs ys
  | _, _ => false

/-- Every binding of the first dict is matched by an ==-equal value in the
second. -/
def pyEqObj : List (String × JVal) → JObj → Bool
  | [], _ => true
  | (k, v) :: rest, b =>
    (match lookupKey k b with
     | some w => pyEq v w
     | none => false) && pyEqObj rest b

end

/-!
openapi_libcore.merge_schemas (and the identical loop in
OpenapiExecutors._merge_schemas): iterate over the second dict; for a key
already present, a dict value is merged into the existing dict in place, a
list value extends the existing list, and any other value is only logged
("not updated") leaving the existing value unchanged; a fresh key is
added.  Calling update on a non-dict or extend on a non-list raises an
AttributeError in Python, modelled as Except.error.
-/

/-- One iteration of the merge loop of merge_schemas, for key k with the
second dict's value v. -/
def mergeStep (acc : JObj) (k : String) (v : JVal) : Except String JObj :=
  match lookupKey k acc with
  | none => .ok (setKey k v acc)
  | some oldV =>
    match v with
    | .obj kvs2 =>
      match oldV with
      | .obj kvs1 => .ok (setKey k (.obj (dictUpdate kvs1 kvs2)) acc)
      | _ => .error "AttributeError: object has no attribute update"
    | .arr xs2 =>
      match oldV with
      | .arr xs1 => .ok (setKey k (.arr (xs1 ++ xs2)) acc)
      | _ => .error "AttributeError: object has no attribute extend"
    | _ => .ok acc

/-- The merge loop of merge_schemas over the entries of the second dict. -/
def mergeEntries (acc : JObj) : List (String × JVal) → Except String JObj
  | [] => .ok acc
  | (k, v) :: rest =>
    match mergeStep acc k v with
    | .ok acc2 => mergeEntries acc2 rest
    | .error e => .error e

/-- openapi_libcore.merge_schemas / OpenapiExecutors._merge_schemas as a
function on value trees (the copy depth of the accumulator is invisible at
this level; aliasing effects are treated separately in the heap model). -/
def merge_schemas (first second : JObj) : Except String JObj :=
  mergeEntries first second

/-- The value found at a key is structurally smaller than the dict
(termination measure for the allOf recursion). -/
def lookup_sizeOf (k : String) :
    ∀ (kvs : JObj) (v : JVal), lookupKey k kvs = some v → sizeOf v < sizeOf kvs
  | [], v, h => by simp [lookupKey] at h
  | (k2, v2) :: rest, v, h => by
    simp only [lookupKey] at h
    split at h
    · cases h
      simp only [List.cons.sizeOf_spec, Prod.mk.sizeOf_spec]
      omega
    · have ih := lookup_sizeOf k rest v h
      simp only [List.cons.sizeOf_spec, Prod.mk.sizeOf_spec]
      omega

mutual

/-- openapi_libcore.resolve_schema / OpenapiExecutors.resolve_schema as a
function on value trees: pop allOf from (a copy of) the schema and, when
the popped value is truthy, resolve each part recursively and merge it
into the accumulator.  A truthy allOf that is not a list makes the Python
loop fail (iterating a non-iterable, or calling dict methods on a
non-dict), modelled as Except.error. -/
def resolve_schema (kvs : JObj) : Except String JObj :=
  match h : lookupKey "allOf" kvs with
  | none => .ok kvs
  | some (.arr parts) =>
    if truthy (.arr parts) then resolveParts parts (removeKey "allOf" kvs)
    else .ok (removeKey "allOf" kvs)
  | some v =>
    if truthy v then .error "TypeError: allOf is not a list of schemas"
    else .ok (removeKey "allOf" kvs)
termination_by sizeOf kvs
decreasing_by
  have hlt := lookup_sizeOf "allOf" kvs (.arr parts) h
  simp only [JVal.arr.sizeOf_spec] at hlt
  omega

/-- The loop of resolve_schema over the allOf parts: resolve each part
(which must itself be a dict) and merge it into the accumulator. -/
def resolveParts (parts : List JVal) (acc : JObj) : Except String JObj :=
  match parts with
  | [] => .ok acc
  | .obj pkvs :: rest =>
    match resolve_schema pkvs with
    | .ok rp =>
      match merge_schemas acc rp with
      | .ok acc2 => resolveParts rest acc2
      | .error e => .error e
    | .error e => .error e
  | _ :: _ => .error "AttributeError: allOf part is not a dict"
termination_by sizeOf parts
decreasing_by
  · simp only [List.cons.sizeOf_spec, JVal.obj.sizeOf_spec]
    omega
  · simp only [List.cons.sizeOf_spec]
    omega

end

/-!
Heap model of OpenapiExecutors.resolve_schema / _merge_schemas.

The executor variant copies the schema with dict.copy() (shallow) and
_merge_schemas also starts from first.copy() (shallow), while the merge
loop runs merged_schema[key].update(value) on the dict object stored
under key, i.e. it mutates that object in place.  After a shallow copy
that object is shared with the caller's argument, so the update can be
observed through the original schema.  The heap model below makes the
sharing explicit: compound values live at addresses, scalars are inline.
Recursion is guarded by fuel (the Python recursion is unbounded; for the
concrete closed runs below the fuel is ample and never reached).
-/

/-- A heap value: a scalar string or a reference to a compound cell. -/
inductive HVal where
  | scalarS (s : String)
  | ref (a : Nat)
  deriving Repr, DecidableEq

/-- A compound heap cell: a dict or a list. -/
inductive HCell where
  | dict (kvs : List (String × HVal))
  | list (xs : List HVal)
  deriving Repr, DecidableEq

/-- The heap: a map from addresses to cells, plus the next fresh address. -/
abbrev Heap := List (Nat × HCell)

/-- Read the cell at an address. -/
def heapGet (h : Heap) (a : Nat) : Option HCell :=
  match h.find? (fun c => c.1 == a) with
  | some c => some c.2
  | none => none

/-- Overwrite the cell at an existing address. -/
def heapSet (h : Heap) (a : Nat) (c : HCell) : Heap :=
  h.map (fun e => if e.1 == a then (a, c) else e)

/-- The next unused address. -/
def heapFresh (h : Heap) : Nat :=
  (h.map Prod.fst).foldl (fun m a => max m (a + 1)) 0

/-- Allocate a new cell, returning its address. -/
def heapAlloc (h : Heap) (c : HCell) : Nat × Heap :=
  let a := heapFresh h
  (a, h ++ [(a, c)])

/-- Association-list update with Python dict assignment semantics, on heap
values. -/
def hSetKey (k : String) (v : HVal) : List (String × HVal) → List (String × HVal)
  | [] => [(k, v)]
  | (k2, v2) :: rest => if k2 = k then (k, v) :: rest else (k2, v2) :: hSetKey k v rest

/-- Association-list lookup on heap values. -/
def hLookupKey (k : String) : List (String × HVal) → Option HVal
  | [] => none
  | (k2, v) :: rest => if k2 = k then some v else hLookupKey k rest

/-- d1.update(d2) on heap dict entries (entry lists, references kept). -/
def hDictUpdate (d1 d2 : List (String × HVal)) : List (String × HVal) :=
  d2.foldl (fun acc kv => hSetKey kv.1 kv.2 acc) d1

/-- Python truthiness of a heap value (dereferencing compound cells). -/
def hTruthy (h : Heap) : HVal → Bool
  | .scalarS s => s != ""
  | .ref a =>
    match heapGet h a with
    | some (.dict kvs) => !kvs.isEmpty
    | some (.list xs) => !xs.isEmpty
    | none => false

/-- One iteration of the merge loop of OpenapiExecutors._merge_schemas on
the heap: merged_schema[key].update(value) mutates the dict object stored
under key in place (the observable shallow-copy aliasing effect). -/
def hMergeStep (h : Heap) (mergedAddr : Nat) (k : String) (v : HVal) : Except String Heap :=
  match heapGet h mergedAddr with
  | some (.dict mkvs) =>
    match hLookupKey k mkvs with
    | none => .ok (heapSet h mergedAddr (.dict (hSetKey k v mkvs)))
    | some oldV =>
      match v with
      | .ref va =>
        match heapGet h va with
        | some (.dict vkvs) =>
          match oldV with
          | .ref oa =>
            match heapGet h oa with
            | some (.dict okvs) => .ok (heapSet h oa (.dict (hDictUpdate okvs vkvs)))
            | _ => .error "AttributeError: object has no attribute update"
          | _ => .error "AttributeError: object has no attribute update"
        | some (.list vxs) =>
          match oldV with
          | .ref oa =>
            match heapGet h oa with
            | some (.list oxs) => .ok (heapSet h oa (.list (oxs ++ vxs)))
            | _ => .error "AttributeError: object has no attribute extend"
          | _ => .error "AttributeError: object has no attribute extend"
        | none => .error "dangling reference"
      | .scalarS _ => .ok h
  | _ => .error "merged schema is not a dict"

/-- The merge loop of OpenapiExecutors._merge_schemas on the heap. -/
def hMergeEntries (h : Heap) (mergedAddr : Nat) : List (String × HVal) → Except String Heap
  | [] => .ok h
  | (k, v) :: rest =>
    match hMergeStep h mergedAddr k v with
    | .ok h2 => hMergeEntries h2 mergedAddr rest
    | .error e => .error e

/-- OpenapiExecutors._merge_schemas on the heap: merged = first.copy() is
a SHALLOW copy (a fresh dict whose values still reference the original
compound cells), then the merge loop runs over the second dict. -/
def hMergeSchemas (h : Heap) (firstAddr secondAddr : Nat) : Except String (Nat × Heap) :=
  match heapGet h firstAddr with
  | some (.dict fkvs) =>
    let (ma, h1) := heapAlloc h (.dict fkvs)
    match heapGet h1 secondAddr with
    | some (.dict skvs) =>
      match hMergeEntries h1 ma skvs with
      | .ok h2 => .ok (ma, h2)
      | .error e => .error e
    | _ => .error "second schema is not a dict"
  | _ => .error "first schema is not a dict"

mutual

/-- OpenapiExecutors.resolve_schema on the heap: resolved = schema.copy()
is a SHALLOW copy, allOf is popped from the copy, and truthy parts are
resolved recursively then merged via _merge_schemas.  The fuel parameter
only bounds the recursion (decremented at every call so the recursion is
structural); the concrete runs below never exhaust it. -/
def hResolveSchema : Nat → Heap → Nat → Except String (Nat × Heap)
  | 0, _, _ => .error "fuel exhausted"
  | fuel + 1, h, a =>
    match heapGet h a with
    | some (.dict kvs) =>
      let (ra, h1) := heapAlloc h (.dict kvs)
      match hLookupKey "allOf" kvs with
      | none => .ok (ra, h1)
      | some v =>
        let h2 := heapSet h1 ra (.dict (kvs.filter (fun kv => kv.1 != "allOf")))
        if hTruthy h2 v then
          match v with
          | .ref va =>
            match heapGet h2 va with
            | some (.list parts) => hResolvePartsH fuel h2 parts ra
            | _ => .error "TypeError: allOf is not a list of schemas"
          | _ => .error "TypeError: allOf is not a list of schemas"
        else .ok (ra, h2)
    | _ => .error "schema is not a dict"

/-- The loop of OpenapiExecutors.resolve_schema over allOf parts, on the
heap. -/
def hResolvePartsH : Nat → Heap → List HVal → Nat → Except String (Nat × Heap)
  | 0, _, _, _ => .error "fuel exhausted"
  | _ + 1, h, [], accAddr => .ok (accAddr, h)
  | fuel + 1, h, p :: rest, accAddr =>
    match p with
    | .ref pa =>
      match hResolveSchema fuel h pa with
      | .ok (rp, h1) =>
        match hMergeSchemas h1 accAddr rp with
        | .ok (ma, h2) => hResolvePartsH fuel h2 rest ma
        | .error e => .error e
      | .error e => .error e
    | _ => .error "AttributeError: allOf part is not a dict"

end

/-- The concrete schema used to exhibit the aliasing mutation: address 0
holds the argument schema, whose properties dict lives at address 3 and
whose allOf part (address 2) has its own properties dict at address 4. -/
def exHeap : Heap :=
  [(0, .dict [("allOf", .ref 1), ("properties", .ref 3)]),
   (1, .list [.ref 2]),
   (2, .dict [("properties", .ref 4)]),
   (3, .dict [("b", .scalarS "vb")]),
   (4, .dict [("a", .scalarS "va")])]

/-!
value_utils.py and the Dto data layer.  The IGNORE sentinel (a module
level object()) is modelled as a distinguished constructor next to JSON
values; nested synthesized objects (get_dto_data recursing into object
properties) get their own constructor.
-/

/-- A value handled by the Dto layer: a JSON value, the IGNORE sentinel,
or a nested synthesized object. -/
inductive DVal where
  | json (v : JVal)
  | ignoreSentinel
  | nested (kvs : List (String × DVal))

mutual

/-- Structural equality test on Dto-layer values. -/
def DVal.beq : DVal → DVal → Bool
  | .json a, .json b => a == b
  | .ignoreSentinel, .ignoreSentinel => true
  | .nested xs, .nested ys => DVal.beqObj xs ys
  | _, _ => false

/-- Structural equality test on association lists of Dto-layer values. -/
def DVal.beqObj : List (String × DVal) → List (String × DVal) → Bool
  | [], [] => true
  | (k1, v1) :: xs, (k2, v2) :: ys => k1 == k2 && DVal.beq v1 v2 && DVal.beqObj xs ys
  | _, _ => false

end

mutual

theorem DVal.eq_of_beqD : ∀ {a b : DVal}, DVal.beq a b = true → a = b
  | .json a, .json b, h => by
    have : a = b := by simpa [DVal.beq] using h
    rw [this]
  | .ignoreSentinel, .ignoreSentinel, _ => rfl
  | .nested xs, .nested ys, h => by
    rw [@DVal.eqObjD_of_beqObjD xs ys (by simpa [DVal.beq] using h)]

theorem DVal.eqObjD_of_beqObjD :
    ∀ {xs ys : List (String × DVal)}, DVal.beqObj xs ys = true → xs = ys
  | [], [], _ => rfl
  | (k1, v1) :: xs, (k2, v2) :: ys, h => by
    have h1 : (k1 == k2) = true ∧ DVal.beq v1 v2 = true ∧ DVal.beqObj xs ys = true := by
      simpa [DVal.beqObj, Bool.and_eq_true, and_assoc] using h
    have hk : k1 = k2 := by simpa using h1.1
    rw [hk, DVal.eq_of_beqD h1.2.1, DVal.eqObjD_of_beqObjD h1.2.2]

end

mutual

theorem DVal.beqD_refl : ∀ (a : DVal), DVal.beq a a = true
  | .json a => by simp [DVal.beq]
  | .ignoreSentinel => rfl
  | .nested xs => by simpa [DVal.beq] using DVal.beqObjD_refl xs

theorem DVal.beqObjD_refl : ∀ (xs : List (String × DVal)), DVal.beqObj xs xs = true
  | [] => rfl
  | (k, v) :: xs => by simp [DVal.beqObj, DVal.beqD_refl v, DVal.beqObjD_refl xs]

end

instance : DecidableEq DVal := fun a b =>
  if h : DVal.beq a b = true then
    .isTrue (DVal.eq_of_beqD h)
  else
    .isFalse (fun hab => h (hab ▸ DVal.beqD_refl a))

/-- Python truthiness of a Dto-layer value (the IGNORE object is truthy). -/
def DVal.truthyD : DVal → Bool
  | .json v => truthy v
  | .ignoreSentinel => true
  | .nested kvs => !kvs.isEmpty

/-- Numeric view of a Dto-layer value (abs and + accept bools as ints). -/
def DVal.asNumD : DVal → Option Int
  | .json v => asNum v
  | _ => none

/-- Python s[0:b] (one-sided slice with a possibly negative bound). -/
def pySliceTo (s : List Char) (b : Int) : List Char :=
  if b < 0 then s.take ((s.length : Int) + b).toNat else s.take b.toNat

/-- The padding loop of get_value_out_of_bounds for maxLength, with an
explicit iteration bound (each pass appends one character, so the loop
runs at most m + 1 - length times; the bound below is one more and is
never reached). -/
def padCharsBounded (pick : List Char → Char) (m : Int) :
    Nat → List Char → List Char
  | 0, s => s
  | bound + 1, s =>
    if (s.length : Int) ≤ m then padCharsBounded pick m bound (s ++ [pick s]) else s

/-- The padding loop of get_value_out_of_bounds for maxLength: append a
character drawn (randomly, here via the pick oracle) from the value until
its length exceeds m. -/
def padChars (pick : List Char → Char) (m : Int) (s : List Char) : List Char :=
  padCharsBounded pick m ((m + 1 - (s.length : Int)).toNat + 1) s

/-- The exclusiveMinimum / exclusiveMaximum part of
get_value_out_of_bounds: a truthy value is returned verbatim. -/
def get_value_out_of_bounds_exclusive (valueSchema : JObj) : Except String (Option JVal) :=
  match lookupKey "exclusiveMinimum" valueSchema with
  | some ev =>
    if truthy ev then .ok (some ev)
    else
      match lookupKey "exclusiveMaximum" valueSchema with
      | some ev2 => if truthy ev2 then .ok (some ev2) else .ok none
      | none => .ok none
  | none =>
    match lookupKey "exclusiveMaximum" valueSchema with
    | some ev2 => if truthy ev2 then .ok (some ev2) else .ok none
    | none => .ok none

/-- The maximum / exclusive-bounds part of get_value_out_of_bounds. -/
def get_value_out_of_bounds_max (valueSchema : JObj) : Except String (Option JVal) :=
  match lookupKey "maximum" valueSchema with
  | some mv =>
    if truthy mv then
      match asNum mv with
      | some m => .ok (some (.num (m + 1)))
      | none => .error "TypeError: unsupported operand types for plus"
    else get_value_out_of_bounds_exclusive valueSchema
  | none => get_value_out_of_bounds_exclusive valueSchema

/-- The maxLength part of the string branch of get_value_out_of_bounds. -/
def get_value_out_of_bounds_string_max (valueSchema : JObj) (currentValue : JVal)
    (pick : List Char → Char) : Except String (Option JVal) :=
  match lookupKey "maxLength" valueSchema with
  | some mlv =>
    if truthy mlv then
      match asNum mlv with
      | some m =>
        match (if truthy currentValue then currentValue else .str "x") with
        | .str s => .ok (some (.str (String.mk (padChars pick m s.toList))))
        | _ => .error "TypeError: object has no len"
      | none => .error "TypeError: not supported between instances"
    else .ok none
  | none => .ok none

/-- The string branch of get_value_out_of_bounds: truncate below a truthy
minLength, else pad beyond a truthy maxLength with characters drawn from
the current value.  Slicing a non-sequence or measuring the length of a
non-string raises a TypeError in Python, modelled as Except.error. -/
def get_value_out_of_bounds_string (valueSchema : JObj) (currentValue : JVal)
    (pick : List Char → Char) : Except String (Option JVal) :=
  match lookupKey "minLength" valueSchema with
  | some mlv =>
    if truthy mlv then
      match asNum mlv with
      | some m =>
        match currentValue with
        | .str s => .ok (some (.str (String.mk (pySliceTo s.toList (m - 1)))))
        | .arr xs =>
          .ok (some (.arr (if m - 1 < 0 then xs.take ((xs.length : Int) + (m - 1)).toNat
                           else xs.take (m - 1).toNat)))
        | _ => .error "TypeError: object is not subscriptable"
      | none => .error "TypeError: slice indices must be integers"
    else get_value_out_of_bounds_string_max valueSchema currentValue pick
  | none => get_value_out_of_bounds_string_max valueSchema currentValue pick

/-- value_utils.get_value_out_of_bounds.  The minimum/maximum guards use
Python truthiness of the looked-up value (a zero bound is skipped), the
exclusive bounds are returned verbatim, and the string branch slices or
pads the current value. -/
def get_value_out_of_bounds (valueSchema : JObj) (currentValue : JVal)
    (pick : List Char → Char) : Except String (Option JVal) :=
  match lookupKey "type" valueSchema with
  | none => .error "KeyError: type"
  | some vt =>
    if vt = .str "integer" || vt = .str "number" then
      match lookupKey "minimum" valueSchema with
      | some mv =>
        if truthy mv then
          match asNum mv with
          | some m => .ok (some (.num (m - 1)))
          | none => .error "TypeError: unsupported operand types for minus"
        else get_value_out_of_bounds_max valueSchema
      | none => get_value_out_of_bounds_max valueSchema
    else if vt = .str "string" then
      get_value_out_of_bounds_string valueSchema currentValue pick
    else .ok none

/-- Numeric value of a Dto-layer value for abs / + (bools count as ints;
anything else raises a TypeError in Python). -/
def DVal.getNum : DVal → Except String Int
  | .json v =>
    match asNum v with
    | some n => .ok n
    | none => .error "TypeError: bad operand type for abs"
  | _ => .error "TypeError: bad operand type for abs"

/-- The numeric accumulation loop of get_invalid_value_from_constraint:
invalid_value = abs(invalid_value) + abs(value) over the remaining
values. -/
def constraintNumFold (start : Int) : List DVal → Except String Int
  | [] => .ok start
  | v :: rest =>
    match DVal.getNum v with
    | .ok n => constraintNumFold (start.natAbs + n.natAbs) rest
    | .error e => .error e

/-- The concatenation loop of get_invalid_value_from_constraint for the
string / array types: invalid_value = invalid_value + value. -/
def constraintConcatFold (start : DVal) : List DVal → Except String DVal
  | [] => .ok start
  | v :: rest =>
    match start, v with
    | .json (.str a), .json (.str b) => constraintConcatFold (.json (.str (a ++ b))) rest
    | .json (.arr a), .json (.arr b) => constraintConcatFold (.json (.arr (a ++ b))) rest
    | _, _ => .error "TypeError: unsupported operand types for plus"

/-- value_utils.get_invalid_value_from_constraint: IGNORE is returned as
soon as it is among the values; a single boolean constraint is negated
(by truthiness); for string / integer / number / array the doubled value
list is combined (absolute sum or concatenation); every other case yields
None. -/
def get_invalid_value_from_constraint (valuesFromConstraint : List DVal)
    (valueType : JVal) : Except String (Option DVal) :=
  if valuesFromConstraint.contains .ignoreSentinel then .ok (some .ignoreSentinel)
  else if valuesFromConstraint.length == 1 && valueType == .str "boolean" then
    match valuesFromConstraint with
    | [v] => .ok (some (.json (.bool (!v.truthyD))))
    | _ => .ok none
  else if !(valueType == .str "string" || valueType == .str "integer" ||
            valueType == .str "number" || valueType == .str "array") ||
          valuesFromConstraint.isEmpty then
    .ok none
  else
    let doubled := valuesFromConstraint ++ valuesFromConstraint
    match doubled.getLast? with
    | none => .ok none
    | some lastV =>
      let rest := doubled.dropLast
      if valueType == .str "integer" || valueType == .str "number" then
        match DVal.getNum lastV with
        | .ok n0 =>
          match constraintNumFold n0 rest with
          | .ok n =>
            if n == 0 then .ok (some (.json (.num (n + 1))))
            else .ok (some (.json (.num n)))
          | .error e => .error e
        | .error e => .error e
      else
        match constraintConcatFold lastV rest with
        | .ok v => if v.truthyD then .ok (some v) else .ok none
        | .error e => .error e

/-- The inner loop of the object case of get_invalid_value_from_enum:
for each key of the combined object, set it to value.get(key) and return
the combined object as soon as it is not ==-equal to any enum value. -/
def enumObjKeyLoop (keys : List String) (acc : JObj) (value : JObj)
    (values : List JVal) : Option JObj × JObj :=
  match keys with
  | [] => (none, acc)
  | k :: rest =>
    let acc2 := setKey k ((lookupKey k value).getD .null) acc
    if values.all (fun v => !pyEq (.obj acc2) v) then (some acc2, acc2)
    else enumObjKeyLoop rest acc2 value values

/-- The outer loop of get_invalid_value_from_enum over the enum values,
for a given value type. -/
def enumValueLoop (valueType : JVal) (acc : JVal) (values : List JVal)
    (allValues : List JVal) : Except String JVal :=
  match values with
  | [] => .ok acc
  | v :: rest =>
    if valueType == .str "integer" || valueType == .str "number" then
      match acc, asNum v with
      | .num a, some n => enumValueLoop valueType (.num (a + n.natAbs)) rest allValues
      | _, _ => .error "TypeError: bad operand type for abs"
    else if valueType == .str "string" then
      match acc, v with
      | .str a, .str b => enumValueLoop valueType (.str (a ++ b)) rest allValues
      | _, _ => .error "TypeError: can only concatenate str to str"
    else if valueType == .str "array" then
      match acc, v with
      | .arr a, .arr b => enumValueLoop valueType (.arr (a ++ b)) rest allValues
      | _, _ => .error "TypeError: object is not iterable"
    else
      match acc, v with
      | .obj akvs, .obj vkvs =>
        match enumObjKeyLoop (akvs.map Prod.fst) akvs vkvs allValues with
        | (some hit, _) => .ok (.obj hit)
        | (none, acc2) => enumValueLoop valueType (.obj acc2) rest allValues
      | _, _ => .error "AttributeError: object has no attribute get"

/-- value_utils.get_invalid_value_from_enum: start from an empty value of
the enum type ({**values[0]} for objects), then combine every enum value
into it; unsupported types yield None after a logged warning. -/
def get_invalid_value_from_enum (values : List JVal) (valueType : JVal) :
    Except String (Option JVal) :=
  if valueType == .str "string" then
    (enumValueLoop valueType (.str "") values values).map some
  else if valueType == .str "integer" || valueType == .str "number" then
    (enumValueLoop valueType (.num 0) values values).map some
  else if valueType == .str "array" then
    (enumValueLoop valueType (.arr []) values values).map some
  else if valueType == .str "object" then
    match values.head? with
    | some (.obj kvs) => (enumValueLoop valueType (.obj kvs) values values).map some
    | some _ => .error "TypeError: argument after ** must be a mapping"
    | none => .error "IndexError: list index out of range"
  else .ok none

/-- value_utils.get_invalid_value: try the constraint values, then the
enum values, then the min/max bounds; as a last resort change the data
type (a nested object for strings, a random hex string otherwise, the
latter standing for uuid4().hex via the randHex oracle). -/
def get_invalid_value (valueSchema : JObj) (currentValue : JVal)
    (valuesFromConstraint : Option (List DVal)) (randHex : String)
    (pick : List Char → Char) : Except String DVal :=
  match lookupKey "type" valueSchema with
  | none => .error "KeyError: type"
  | some vt =>
    let fromConstraint : Except String (Option DVal) :=
      match valuesFromConstraint with
      | some vs => if vs.isEmpty then .ok none else get_invalid_value_from_constraint vs vt
      | none => .ok none
    match fromConstraint with
    | .error e => .error e
    | .ok (some v) => .ok v
    | .ok none =>
      let fromEnum : Except String (Option JVal) :=
        match lookupKey "enum" valueSchema with
        | some ev =>
          if truthy ev then
            match ev with
            | .arr evs => get_invalid_value_from_enum evs vt
            | _ => .error "TypeError: enum is not a list"
          else .ok none
        | none => .ok none
      match fromEnum with
      | .error e => .error e
      | .ok (some v) => .ok (.json v)
      | .ok none =>
        match get_value_out_of_bounds valueSchema currentValue pick with
        | .error e => .error e
        | .ok (some v) => .ok (.json v)
        | .ok none =>
          if vt = .str "string" then .ok (.json (.arr [.obj [("invalid", .arr [.null])]]))
          else .ok (.json (.str randHex))

/-!
dto_base.py: the Relation union and DtoBase.get_invalidated_data.  The
random shuffles of the relations and of the property names are modelled
by taking the already-shuffled orders as arguments; uuid4().hex,
uuid4().int and uuid4().int / 3.14 become the randHex / randInt /
randFloat oracles (the last one as an opaque value, floats being out of
scope).
-/

/-- The Relation union of dto_base.py. -/
inductive RelationR where
  | pathPropertiesConstraint (path : String) (propertyName : String) (errorCode : Int)
  | propertyValueConstraint (propertyName : String) (values : List DVal) (errorCode : Int)
  | idDependency (propertyName : String) (getPath : String) (operationId : Option String)
      (errorCode : Int)
  | idReference (propertyName : String) (postPath : String) (errorCode : Int)
  | uniquePropertyValueConstraint (propertyName : String) (value : DVal) (errorCode : Int)
  deriving DecidableEq

/-- The property_name attribute shared by all relations. -/
def RelationR.propName : RelationR → String
  | .pathPropertiesConstraint _ p _ => p
  | .propertyValueConstraint p _ _ => p
  | .idDependency p _ _ _ => p
  | .idReference p _ _ => p
  | .uniquePropertyValueConstraint p _ _ => p

/-- The error_code attribute shared by all relations. -/
def RelationR.errCode : RelationR → Int
  | .pathPropertiesConstraint _ _ c => c
  | .propertyValueConstraint _ _ c => c
  | .idDependency _ _ _ c => c
  | .idReference _ _ c => c
  | .uniquePropertyValueConstraint _ _ c => c

/-- DtoBase.get_relations_for_error_code: the relations whose error_code
equals the given code. -/
def get_relations_for_error_code (relations : List RelationR) (errorCode : Int) :
    List RelationR :=
  relations.filter (fun r => r.errCode == errorCode)

/-- The enum-combination helper nested inside
DtoBase.get_invalidated_data (it differs from the value_utils one: no
abs for numbers, strings and numbers share one += branch, objects start
from an empty dict and update with each enum value). -/
def dtoEnumCombine (valueType : JVal) (values : List JVal) : Except String (Option JVal) :=
  if valueType == .str "string" || valueType == .str "integer" || valueType == .str "number" then
    let combine : JVal → JVal → Except String JVal := fun acc v =>
      match acc, v with
      | .str a, .str b => .ok (.str (a ++ b))
      | acc2, v2 =>
        match asNum acc2, asNum v2 with
        | some a, some b => .ok (.num (a + b))
        | _, _ => .error "TypeError: unsupported operand types for plus"
    let start : JVal := if valueType == .str "string" then .str "" else .num 0
    match values.foldlM combine start with
    | .ok v => .ok (some v)
    | .error e => .error e
  else if valueType == .str "array" then
    let combine : JVal → JVal → Except String JVal := fun acc v =>
      match acc, v with
      | .arr a, .arr b => .ok (.arr (a ++ b))
      | _, _ => .error "TypeError: object is not iterable"
    match values.foldlM combine (.arr []) with
    | .ok v => .ok (some v)
    | .error e => .error e
  else if valueType == .str "object" then
    let combine : JVal → JVal → Except String JVal := fun acc v =>
      match acc, v with
      | .obj a, .obj b => .ok (.obj (dictUpdate a b))
      | _, _ => .error "TypeError: argument must be a mapping"
    match values.foldlM combine (.obj []) with
    | .ok v => .ok (some v)
    | .error e => .error e
  else .ok none

/-- The first loop of DtoBase.get_invalidated_data: the first IdDependency
relation whose error_code matches the status code gets its property
replaced by a fresh uuid hex (the logging f-string reads the current
value first, so a missing property raises a KeyError). -/
def invalidateIdDependencyPhase (relations : List RelationR) (properties : JObj)
    (statusCode : Int) (randHex : String) : Option (Except String JObj) :=
  match relations with
  | [] => none
  | .idDependency p _ _ c :: rest =>
    if c == statusCode then
      match lookupKey p properties with
      | some _ => some (.ok (setKey p (.str randHex) properties))
      | none => some (.error "KeyError: no such property on the dto")
    else invalidateIdDependencyPhase rest properties statusCode randHex
  | _ :: rest => invalidateIdDependencyPhase rest properties statusCode randHex

/-- The maximum / constrained tail of the integer and number branches of
the property loop of DtoBase.get_invalidated_data: a truthy maximum gets
maximum + 1, else a constrained property gets the out-of-range random
value (uuid4().int, or uuid4().int / 3.14 for numbers, via the oracle
argument), else fall through. -/
def invalidateNumericTail (constrainedNames : List String) (pd : JObj)
    (properties : JObj) (name : String) (fallbackValue : JVal) :
    Option (Except String JObj) :=
  match lookupKey "maximum" pd with
  | some mv =>
    if truthy mv then
      match asNum mv with
      | some m => some (.ok (setKey name (.num (m + 1)) properties))
      | none => some (.error "TypeError: unsupported operand types for plus")
    else if constrainedNames.contains name then
      some (.ok (setKey name fallbackValue properties))
    else none
  | none =>
    if constrainedNames.contains name then
      some (.ok (setKey name fallbackValue properties))
    else none

/-- The string branch of the property loop of DtoBase.get_invalidated_data:
a truthy minLength that is greater than zero truncates the current value,
else a truthy maxLength appends a fresh uuid hex to the current value. -/
def invalidateStringTail (pd : JObj) (properties : JObj) (name : String)
    (currentValue : JVal) (randHex : String) : Option (Except String JObj) :=
  let maxTail : Option (Except String JObj) :=
    match lookupKey "maxLength" pd with
    | some mv =>
      if truthy mv then
        match currentValue with
        | .str s => some (.ok (setKey name (.str (s ++ randHex)) properties))
        | _ => some (.error "TypeError: can only concatenate str to str")
      else none
    | none => none
  match lookupKey "minLength" pd with
  | some mv =>
    if truthy mv then
      match asNum mv with
      | some m =>
        if m > 0 then
          match currentValue with
          | .str s => some (.ok (setKey name (.str (String.mk (pySliceTo s.toList (m - 1)))) properties))
          | .arr xs =>
            some (.ok (setKey name (.arr (if m - 1 < 0 then xs.take ((xs.length : Int) + (m - 1)).toNat
                                          else xs.take (m - 1).toNat)) properties))
          | _ => some (.error "TypeError: object is not subscriptable")
        else maxTail
      | none => some (.error "TypeError: not supported between instances")
    else maxTail
  | none => maxTail

/-- One pass of the property loop of DtoBase.get_invalidated_data for one
property name: none means fall through to the next property, some gives
the function result (the branches follow the source order: enum, then
constrained boolean, then integer bounds, then number bounds, then string
lengths). -/
def invalidatePropertyStep (constrainedNames : List String) (schema : JObj)
    (properties : JObj) (name : String) (randInt : Int) (randFloat : JVal)
    (randHex : String) : Option (Except String JObj) :=
  match lookupKey "properties" schema with
  | none => some (.error "KeyError: properties")
  | some (.obj schemaProps) =>
    match lookupKey name schemaProps with
    | none => some (.error "KeyError: property not in schema properties")
    | some propertyData =>
      match propertyData with
      | .obj pd =>
        match lookupKey "type" pd with
        | none => some (.error "KeyError: type")
        | some propertyType =>
          match lookupKey name properties with
          | none => some (.error "KeyError: property not on the dto")
          | some currentValue =>
            let enumStep : Option (Except String JObj) :=
              match lookupKey "enum" pd with
              | some ev =>
                if truthy ev then
                  match ev with
                  | .arr evs =>
                    match dtoEnumCombine propertyType evs with
                    | .ok (some v) => some (.ok (setKey name v properties))
                    | .ok none => none
                    | .error e => some (.error e)
                  | _ => some (.error "TypeError: enum is not a list")
                else none
              | none => none
            match enumStep with
            | some r => some r
            | none =>
              if propertyType == .str "boolean" && constrainedNames.contains name then
                some (.ok (setKey name (.bool (!truthy currentValue)) properties))
              else if propertyType == .str "integer" then
                match lookupKey "minimum" pd with
                | some mv =>
                  if truthy mv then
                    match asNum mv with
                    | some m => some (.ok (setKey name (.num (m - 1)) properties))
                    | none => some (.error "TypeError: unsupported operand types for minus")
                  else invalidateNumericTail constrainedNames pd properties name (.num randInt)
                | none => invalidateNumericTail constrainedNames pd properties name (.num randInt)
              else if propertyType == .str "number" then
                match lookupKey "minimum" pd with
                | some mv =>
                  if truthy mv then
                    match asNum mv with
                    | some m => some (.ok (setKey name (.num (m - 1)) properties))
                    | none => some (.error "TypeError: unsupported operand types for minus")
                  else invalidateNumericTail constrainedNames pd properties name randFloat
                | none => invalidateNumericTail constrainedNames pd properties name randFloat
              else if propertyType == .str "string" then
                invalidateStringTail pd properties name currentValue randHex
              else none
      | _ => some (.error "TypeError: schema property entry is not a dict")
  | some _ => some (.error "TypeError: properties is not a dict")

/-- The property loop of DtoBase.get_invalidated_data over the shuffled
property names: the first property for which a branch fires decides the
result. -/
def invalidatePropertyLoop (constrainedNames : List String) (schema : JObj)
    (properties : JObj) (order : List String) (randInt : Int) (randFloat : JVal)
    (randHex : String) : Option (Except String JObj) :=
  match order with
  | [] => none
  | name :: rest =>
    match invalidatePropertyStep constrainedNames schema properties name randInt
        randFloat randHex with
    | some r => some r
    | none => invalidatePropertyLoop constrainedNames schema properties rest randInt
        randFloat randHex

/-- The final fallback of DtoBase.get_invalidated_data: every property
named in the schema gets a type-invalid value (a random hex string for
non-strings, a nested object for strings). -/
def invalidateFallback (schema : JObj) (properties : JObj) (randHex : String) :
    Except String JObj :=
  match lookupKey "properties" schema with
  | none => .error "KeyError: properties"
  | some (.obj schemaProps) =>
    .ok (schemaProps.foldl
      (fun acc kv =>
        let propertyType := match kv.2 with
          | .obj pd => lookupKey "type" pd
          | _ => none
        if propertyType == some (.str "string") then
          setKey kv.1 (.arr [.obj [("invalid", .arr [.null])]]) acc
        else
          setKey kv.1 (.str randHex) acc)
      properties)
  | some _ => .error "TypeError: properties is not a dict"

/-- The property names constrained by a PropertyValueConstraint (any error
code), as collected by DtoBase.get_invalidated_data. -/
def constrainedPropertyNames (relations : List RelationR) : List String :=
  (relations.filter (fun r =>
    match r with
    | .propertyValueConstraint _ _ _ => true
    | _ => false)).map RelationR.propName

/-- DtoBase.get_invalidated_data: the shuffled relations list and the
shuffled property-name order are passed in explicitly (shuffle produces
some permutation; every theorem below quantifies over the order).  First
a matching IdDependency is broken, then the property loop looks for a
violable constraint, and finally the fallback changes the data type of
every schema property. -/
def get_invalidated_data (relations : List RelationR) (properties : JObj)
    (order : List String) (schema : JObj) (statusCode : Int) (randInt : Int)
    (randFloat : JVal) (randHex : String) : Except String JObj :=
  match invalidateIdDependencyPhase relations properties statusCode randHex with
  | some r => r
  | none =>
    match invalidatePropertyLoop (constrainedPropertyNames relations) schema
        properties order randInt randFloat randHex with
    | some r => r
    | none => invalidateFallback schema properties randHex

/-- Python dict assignment on Dto-layer association lists. -/
def dSetKey (k : String) (v : DVal) : List (String × DVal) → List (String × DVal)
  | [] => [(k, v)]
  | (k2, v2) :: rest => if k2 = k then (k, v) :: rest else (k2, v2) :: dSetKey k v rest

/-- Lookup on Dto-layer association lists. -/
def dLookupKey (k : String) : List (String × DVal) → Option DVal
  | [] => none
  | (k2, v) :: rest => if k2 = k then some v else dLookupKey k rest

/-- k in d, on Dto-layer association lists. -/
def dHasKey (k : String) (kvs : List (String × DVal)) : Bool :=
  (dLookupKey k kvs).isSome

/-- The get_constrained_values helper nested in get_dto_data /
get_json_data_for_dto_class: the values lists of the
PropertyValueConstraint relations for the property; values.pop() takes
the last such list, an empty list otherwise. -/
def get_constrained_values (relations : List RelationR) (propertyName : String) :
    List DVal :=
  let valuesLists := relations.filterMap (fun r =>
    match r with
    | .propertyValueConstraint p vs _ => if p = propertyName then some vs else none
    | _ => none)
  (valuesLists.getLast?).getD []

/-- The get_dependent_id helper nested in get_dto_data /
get_json_data_for_dto_class: pick the IdDependency get_path (by
operation_id when several exist; a failed single-match destructuring is
caught and yields None), then fetch a live id over the network (the
fetchId oracle). -/
def get_dependent_id (relations : List RelationR) (propertyName : String)
    (operationId : Option String) (fetchId : String → String) : Option String :=
  let idGetPaths := relations.filterMap (fun r =>
    match r with
    | .idDependency p g op _ => if p = propertyName then some (g, op) else none
    | _ => none)
  match idGetPaths with
  | [] => none
  | [(g, _)] => some (fetchId g)
  | _ =>
    match idGetPaths.filter (fun po => po.2 == operationId) with
    | [(g, _)] => some (fetchId g)
    | _ => none

mutual

/-- The body of OpenapiExecutors.get_dto_data for a dict schema (the
dispatch on a non-dict schema argument is in get_dto_data below).  For
each declared property in document order: a constrained property gets
a random choice from the allowed values (the pickD oracle; note there is
NO IGNORE filtering in this variant), else an IdDependency property gets
a live id, else an object property recurses with the default dto (no
relations), else a valid value is synthesized (the validValue oracle for
value_utils.get_valid_value).  The loop iterates the properties dict
entries; re-indexing schema properties by name agrees with this on
Python dicts, whose keys are unique. -/
def getDtoDataObj (relations : List RelationR) (kvs : JObj)
    (operationId : Option String) (fetchId : String → String)
    (validValue : JObj → JVal) (pickD : List DVal → DVal) :
    Except String (List (String × DVal)) :=
  match h : lookupKey "properties" kvs with
  | none => .ok []
  | some (.obj props) =>
    dtoDataLoop relations props operationId fetchId validValue pickD []
  | some (.arr []) => .ok []
  | some _ => .error "TypeError: properties is not a schema dict"
termination_by sizeOf kvs
decreasing_by
  have hlt := lookup_sizeOf "properties" kvs (.obj props) h
  simp only [JVal.obj.sizeOf_spec] at hlt
  omega

/-- The property loop of OpenapiExecutors.get_dto_data. -/
def dtoDataLoop (relations : List RelationR) (pending : List (String × JVal))
    (operationId : Option String) (fetchId : String → String)
    (validValue : JObj → JVal) (pickD : List DVal → DVal)
    (acc : List (String × DVal)) : Except String (List (String × DVal)) :=
  match pending with
  | [] => .ok acc
  | (name, valueSchema) :: rest =>
    match valueSchema with
    | .obj vs =>
      match lookupKey "type" vs with
      | none => .error "KeyError: type"
      | some propertyType =>
        let constrainedValues := get_constrained_values relations name
        if !constrainedValues.isEmpty then
          dtoDataLoop relations rest operationId fetchId validValue pickD
            (dSetKey name (pickD constrainedValues) acc)
        else
          match get_dependent_id relations name operationId fetchId with
          | some depId =>
            if depId.isEmpty then
              dtoDataStepTail relations (name, valueSchema) rest operationId fetchId
                validValue pickD acc propertyType vs
            else
              dtoDataLoop relations rest operationId fetchId validValue pickD
                (dSetKey name (.json (.str depId)) acc)
          | none =>
            dtoDataStepTail relations (name, valueSchema) rest operationId fetchId
              validValue pickD acc propertyType vs
    | _ => .error "TypeError: value schema is not a dict"
termination_by sizeOf pending
decreasing_by
  all_goals simp only [List.cons.sizeOf_spec, Prod.mk.sizeOf_spec, JVal.obj.sizeOf_spec]
  all_goals omega

/-- The object-recursion / valid-value tail of the get_dto_data loop. -/
def dtoDataStepTail (relations : List RelationR) (entry : String × JVal)
    (rest : List (String × JVal)) (operationId : Option String)
    (fetchId : String → String) (validValue : JObj → JVal)
    (pickD : List DVal → DVal) (acc : List (String × DVal))
    (propertyType : JVal) (vs : JObj) : Except String (List (String × DVal)) :=
  if propertyType == .str "object" then
    match getDtoDataObj [] vs (some "") fetchId validValue pickD with
    | .ok objData =>
      dtoDataLoop relations rest operationId fetchId validValue pickD
        (dSetKey entry.1 (.nested objData) acc)
    | .error e => .error e
  else
    dtoDataLoop relations rest operationId fetchId validValue pickD
      (dSetKey entry.1 (.json (validValue vs)) acc)
termination_by 1 + sizeOf vs + sizeOf rest
decreasing_by
  all_goals cases rest <;> simp <;> omega

end

/-- OpenapiExecutors.get_dto_data: dispatch on the schema argument (a
non-dict schema raises an AttributeError on schema.get) and run the
property loop. -/
def get_dto_data (relations : List RelationR) (schema : JVal)
    (operationId : Option String) (fetchId : String → String)
    (validValue : JObj → JVal) (pickD : List DVal → DVal) :
    Except String (List (String × DVal)) :=
  match schema with
  | .obj kvs => getDtoDataObj relations kvs operationId fetchId validValue pickD
  | _ => .error "AttributeError: schema is not a dict"

mutual

/-- The body of OpenApiLibCore.get_json_data_for_dto_class for a dict
schema.  Identical to the executor variant except for the IGNORE check:
a property whose constrained values contain the IGNORE sentinel is not
added to the synthesized body at all. -/
def getJsonDataForDtoClassObj (relations : List RelationR) (kvs : JObj)
    (operationId : Option String) (fetchId : String → String)
    (validValue : JObj → JVal) (pickD : List DVal → DVal) :
    Except String (List (String × DVal)) :=
  match h : lookupKey "properties" kvs with
  | none => .ok []
  | some (.obj props) =>
    jsonDataLoop relations props operationId fetchId validValue pickD []
  | some (.arr []) => .ok []
  | some _ => .error "TypeError: properties is not a schema dict"
termination_by sizeOf kvs
decreasing_by
  have hlt := lookup_sizeOf "properties" kvs (.obj props) h
  simp only [JVal.obj.sizeOf_spec] at hlt
  omega

/-- The property loop of OpenApiLibCore.get_json_data_for_dto_class. -/
def jsonDataLoop (relations : List RelationR) (pending : List (String × JVal))
    (operationId : Option String) (fetchId : String → String)
    (validValue : JObj → JVal) (pickD : List DVal → DVal)
    (acc : List (String × DVal)) : Except String (List (String × DVal)) :=
  match pending with
  | [] => .ok acc
  | (name, valueSchema) :: rest =>
    match valueSchema with
    | .obj vs =>
      match lookupKey "type" vs with
      | none => .error "KeyError: type"
      | some propertyType =>
        let constrainedValues := get_constrained_values relations name
        if !constrainedValues.isEmpty then
          if constrainedValues.contains .ignoreSentinel then
            jsonDataLoop relations rest operationId fetchId validValue pickD acc
          else
            jsonDataLoop relations rest operationId fetchId validValue pickD
              (dSetKey name (pickD constrainedValues) acc)
        else
          match get_dependent_id relations name operationId fetchId with
          | some depId =>
            if depId.isEmpty then
              jsonDataStepTail relations (name, valueSchema) rest operationId fetchId
                validValue pickD acc propertyType vs
            else
              jsonDataLoop relations rest operationId fetchId validValue pickD
                (dSetKey name (.json (.str depId)) acc)
          | none =>
            jsonDataStepTail relations (name, valueSchema) rest operationId fetchId
              validValue pickD acc propertyType vs
    | _ => .error "TypeError: value schema is not a dict"
termination_by sizeOf pending
decreasing_by
  all_goals simp only [List.cons.sizeOf_spec, Prod.mk.sizeOf_spec, JVal.obj.sizeOf_spec]
  all_goals omega

/-- The object-recursion / valid-value tail of the
get_json_data_for_dto_class loop. -/
def jsonDataStepTail (relations : List RelationR) (entry : String × JVal)
    (rest : List (String × JVal)) (operationId : Option String)
    (fetchId : String → String) (validValue : JObj → JVal)
    (pickD : List DVal → DVal) (acc : List (String × DVal))
    (propertyType : JVal) (vs : JObj) : Except String (List (String × DVal)) :=
  if propertyType == .str "object" then
    match getJsonDataForDtoClassObj [] vs (some "") fetchId validValue pickD with
    | .ok objData =>
      jsonDataLoop relations rest operationId fetchId validValue pickD
        (dSetKey entry.1 (.nested objData) acc)
    | .error e => .error e
  else
    jsonDataLoop relations rest operationId fetchId validValue pickD
      (dSetKey entry.1 (.json (validValue vs)) acc)
termination_by 1 + sizeOf vs + sizeOf rest
decreasing_by
  all_goals cases rest <;> simp <;> omega

end

/-- OpenApiLibCore.get_json_data_for_dto_class: dispatch on the schema
argument and run the property loop. -/
def get_json_data_for_dto_class (relations : List RelationR) (schema : JVal)
    (operationId : Option String) (fetchId : String → String)
    (validValue : JObj → JVal) (pickD : List DVal → DVal) :
    Except String (List (String × DVal)) :=
  match schema with
  | .obj kvs => getJsonDataForDtoClassObj relations kvs operationId fetchId validValue pickD
  | _ => .error "AttributeError: schema is not a dict"

/-!
OpenapiExecutors.test_endpoint (the error-status dispatch) and the
invalidate_json_data / get_invalid_json_data keywords, together with the
Python keyword-argument binding they rely on when calling
dto.get_invalidated_data.
-/

/-- An observable step of test_endpoint after the url and request data
are built. -/
inductive TestStep where
  | invalidate_json_data_kw
  | invalidate_parameters_kw
  | logged_no_mapping_error (statusCode : Int)
  | raised_assertion (message : String)
  | perform_validated_request
  deriving DecidableEq

/-- Discriminator for the assertion step. -/
def TestStep.isRaisedAssertion : TestStep → Bool
  | .raised_assertion _ => true
  | _ => false

/-- OpenapiExecutors.test_endpoint after url/request-data construction:
the sequence of invalidation keywords run and the final
perform_validated_request (which sends the request).  For an error status
with relations, one side is invalidated (the random choice between body
and parameters is the pickJson coin); with no relations and the default
invalid-property status, both sides are invalidated; with no relations
and any other error status the code only logs an error
("No Dto mapping found to cause status_code ...") and still performs the
request - no AssertionError is raised on this path. -/
def test_endpoint_steps (dtoRelations dtoParameterRelations : List RelationR)
    (statusCode invalidPropertyDefaultResponse : Int) (pickJson : Bool) :
    List TestStep :=
  if statusCode < 400 then [.perform_validated_request]
  else
    let dataRelations := get_relations_for_error_code dtoRelations statusCode
    let parameterRelations :=
      get_relations_for_error_code dtoParameterRelations statusCode
    if !dataRelations.isEmpty && !parameterRelations.isEmpty then
      (if pickJson then [.invalidate_json_data_kw] else [.invalidate_parameters_kw]) ++
        [.perform_validated_request]
    else if !dataRelations.isEmpty then
      [.invalidate_json_data_kw, .perform_validated_request]
    else if !parameterRelations.isEmpty then
      [.invalidate_parameters_kw, .perform_validated_request]
    else if statusCode == invalidPropertyDefaultResponse then
      [.invalidate_json_data_kw, .invalidate_parameters_kw, .perform_validated_request]
    else
      [.logged_no_mapping_error statusCode, .perform_validated_request]

/-- The parameter names of DtoBase.get_invalidated_data besides self
(dto_base.py lines 104-106). -/
def getInvalidatedDataParams : List String := ["schema", "status_code"]

/-- The keyword arguments passed to dto.get_invalidated_data by
OpenapiExecutors.invalidate_json_data and
OpenApiLibCore.get_invalid_json_data. -/
def getInvalidatedDataCallKwargs : List String :=
  ["schema", "status_code", "invalid_property_default_code"]

/-- Python keyword-argument binding for a function without a **kwargs
parameter: a keyword that is not a parameter name raises a TypeError. -/
def bindKwargs (paramNames kwargNames : List String) : Except String Unit :=
  match kwargNames.find? (fun k => !paramNames.contains k) with
  | some k => .error ("TypeError: get_invalidated_data got an unexpected keyword argument " ++ k)
  | none => .ok ()

/-- How invalidate_json_data / get_invalid_json_data produce their result. -/
inductive InvalidateJsonOutcome where
  | viaEnsureConflict
  | viaEnsureInUse
  | viaGetInvalidatedData
  deriving DecidableEq

/-- OpenapiExecutors.invalidate_json_data, up to the external keywords
(ensure_conflict / ensure_in_use are network-bound and modelled as
outcomes; the random relation choice is the pickRel oracle).  Both
dto.get_invalidated_data call sites pass the keyword arguments of
getInvalidatedDataCallKwargs, so they are guarded by the binding check. -/
def invalidate_json_data (dataRelations : List RelationR) (schema : JObj)
    (pickRel : List RelationR → RelationR) : Except String InvalidateJsonOutcome :=
  if dataRelations.isEmpty then
    if schema.isEmpty then
      .error "AssertionError: Failed to invalidate: no data_relations and missing schema."
    else
      match bindKwargs getInvalidatedDataParams getInvalidatedDataCallKwargs with
      | .ok _ => .ok .viaGetInvalidatedData
      | .error e => .error e
  else
    match pickRel dataRelations with
    | .uniquePropertyValueConstraint _ _ _ => .ok .viaEnsureConflict
    | .idReference _ _ _ => .ok .viaEnsureInUse
    | _ =>
      match bindKwargs getInvalidatedDataParams getInvalidatedDataCallKwargs with
      | .ok _ => .ok .viaGetInvalidatedData
      | .error e => .error e

/-- OpenApiLibCore.get_invalid_json_data: the same structure as
OpenapiExecutors.invalidate_json_data (the libcore variant also returns
asdict(dto) on the IdReference path, which is behind the same outcome
marker here). -/
def get_invalid_json_data (dataRelations : List RelationR) (schema : JObj)
    (pickRel : List RelationR → RelationR) : Except String InvalidateJsonOutcome :=
  if dataRelations.isEmpty then
    if schema.isEmpty then
      .error "AssertionError: Failed to invalidate: no data_relations and missing schema."
    else
      match bindKwargs getInvalidatedDataParams getInvalidatedDataCallKwargs with
      | .ok _ => .ok .viaGetInvalidatedData
      | .error e => .error e
  else
    match pickRel dataRelations with
    | .uniquePropertyValueConstraint _ _ _ => .ok .viaEnsureConflict
    | .idReference _ _ _ => .ok .viaEnsureInUse
    | _ =>
      match bindKwargs getInvalidatedDataParams getInvalidatedDataCallKwargs with
      | .ok _ => .ok .viaGetInvalidatedData
      | .error e => .error e

/-!
The response validators of openapi_executors.py:
validate_resource_properties and validate_send_response.
-/

/-- Code-point comparison of character lists (Python string ordering for
the ASCII names involved). -/
def charListLe : List Char → List Char → Bool
  | [], _ => true
  | _ :: _, [] => false
  | c :: cs, d :: ds =>
    if c.toNat < d.toNat then true
    else if d.toNat < c.toNat then false
    else charListLe cs ds

/-- Sorted insertion of a string (for the sorted() calls in error
messages). -/
def insertSorted (s : String) : List String → List String
  | [] => [s]
  | t :: rest => if charListLe s.toList t.toList then s :: t :: rest else t :: insertSorted s rest

/-- Python sorted() on a list of strings. -/
def sortStrings (l : List String) : List String :=
  l.foldr insertSorted []

/-- Python dict keys views compare as sets. -/
def sameKeySet (a b : JObj) : Bool :=
  a.all (fun kv => hasKey kv.1 b) && b.all (fun kv => hasKey kv.1 a)

/-- OpenapiExecutors.validate_resource_properties: the response property
names must equal the schema property names as sets; otherwise an
AssertionError lists the sorted expected and received names. -/
def validate_resource_properties (resource : JObj) (schemaProperties : JObj) :
    Except String Unit :=
  if sameKeySet resource schemaProperties then .ok ()
  else
    .error ("AssertionError: Response schema violation: the response contains properties that are not specified in the schema. Expected: " ++
      String.intercalate ", " (sortStrings (schemaProperties.map Prod.fst)) ++
      " Got: " ++ String.intercalate ", " (sortStrings (resource.map Prod.fst)))

/-- Does a JSON value match a JSON-schema primitive type name? -/
def jsonTypeMatches (v : JVal) (typeName : String) : Bool :=
  match v, typeName with
  | .str _, "string" => true
  | .num _, "integer" => true
  | .num _, "number" => true
  | .bool _, "boolean" => true
  | .arr _, "array" => true
  | .obj _, "object" => true
  | .null, "null" => true
  | _, _ => false

/-- Modelled from the words of claim C4 (refinement reference, not from
the source): a single-object validator that consults additionalProperties
(boolean True accepts any extras unchecked; a typed fragment accepts an
extra only when its value matches that type; boolean False or absent
requires exact match modulo required, listing missing required keys and
disallowed extras together). -/
def validate_resource_properties_claimC4 (resource : JObj) (schema : JObj) :
    Except String Unit :=
  let schemaProperties : JObj :=
    match lookupKey "properties" schema with
    | some (.obj props) => props
    | _ => []
  let requiredNames : List String :=
    match lookupKey "required" schema with
    | some (.arr req) => req.filterMap (fun v => match v with | .str s => some s | _ => none)
    | _ => []
  if sameKeySet resource schemaProperties then .ok ()
  else
    let extras := resource.filter (fun kv => !hasKey kv.1 schemaProperties)
    let missingRequired := requiredNames.filter (fun n => !hasKey n resource)
    match lookupKey "additionalProperties" schema with
    | some (.bool true) =>
      if missingRequired.isEmpty then .ok ()
      else .error ("AssertionError: missing required properties: " ++
        String.intercalate ", " (sortStrings missingRequired))
    | some (.obj apFragment) =>
      let apType := match lookupKey "type" apFragment with
        | some (.str t) => t
        | _ => ""
      let offending := extras.filter (fun kv => !jsonTypeMatches kv.2 apType)
      if offending.isEmpty && missingRequired.isEmpty then .ok ()
      else .error ("AssertionError: extra properties of the wrong type or missing required properties: " ++
        String.intercalate ", " (sortStrings (offending.map Prod.fst ++ missingRequired)))
    | _ =>
      if extras.isEmpty && missingRequired.isEmpty then .ok ()
      else .error ("AssertionError: disallowed extra or missing required properties: " ++
        String.intercalate ", " (sortStrings (extras.map Prod.fst ++ missingRequired)))

/-- Python substring test (needle in hay). -/
def strContains (hay needle : String) : Bool :=
  if needle.isEmpty then true else (hay.splitOn needle).length > 1

/-- The values accepted for a property that was sent as None (Python
"reference[key] in [None, [], 1, False, '']", with in using ==). -/
def defaultClearedValues : List JVal :=
  [.null, .arr [], .num 1, .bool false, .str ""]

/-- Python list membership via ==. -/
def inPyList (v : JVal) (l : List JVal) : Bool :=
  l.any (fun w => pyEq v w)

/-- Collect the items of the parent array whose id equals the sent id
(every item is indexed by "id" first, as the Python comprehension does). -/
def collectIdMatches (items : List JVal) (sentId : JVal) : Except String (List JObj) :=
  match items with
  | [] => .ok []
  | .obj ikvs :: rest =>
    match lookupKey "id" ikvs with
    | none => .error "KeyError: id"
    | some iid =>
      match collectIdMatches rest sentId with
      | .ok restMatches =>
        if pyEq iid sentId then .ok (ikvs :: restMatches) else .ok restMatches
      | .error e => .error e
  | _ :: _ => .error "TypeError: item is not a dict"

/-- The nested-collection special case of validate_send_response: when the
response href does not contain the request path, the created sub-item is
looked up by id inside the parent's array property and validation
continues against that sub-item. -/
def relocateReference (reference : JObj) (sendJson : JObj) (sendPath : String) :
    Except String JObj :=
  match lookupKey "href" reference with
  | some (.str p) =>
    if p != "" && !strContains p sendPath then
      let propertyToCheck := (sendPath.replace p "").drop 1
      match lookupKey propertyToCheck reference with
      | some v =>
        if truthy v then
          match v with
          | .arr items =>
            match lookupKey "id" sendJson with
            | none => .error "KeyError: id"
            | some sentId =>
              match collectIdMatches items sentId with
              | .ok [onlyMatch] => .ok onlyMatch
              | .ok _ => .error "ValueError: not exactly one item matches the sent id"
              | .error e => .error e
          | _ => .ok reference
        else .ok reference
      | none => .ok reference
    else .ok reference
  | some v => if truthy v then .error "TypeError: argument is not iterable" else .ok reference
  | none => .ok reference

/-- The echo loop of validate_send_response: every sent property present
in the response must hold the sent value (plain Python ==); a property
sent as None must have been cleared or reset to a type default. -/
def sendEchoLoop (reference : JObj) : List (String × JVal) → Except String Unit
  | [] => .ok ()
  | (k, v) :: rest =>
    match lookupKey k reference with
    | none => sendEchoLoop reference rest
    | some r =>
      if v = .null then
        if inPyList r defaultClearedValues then sendEchoLoop reference rest
        else .error ("AssertionError: received value for " ++ k ++ " does not match the sent None")
      else
        if pyEq r v then sendEchoLoop reference rest
        else .error ("AssertionError: received value for " ++ k ++ " does not match the sent value")

/-- The PATCH isolation loop of validate_send_response: every original
property absent from the sent delta must be unchanged in the response. -/
def patchIsolationLoop (reference : JObj) (sendJson : JObj) :
    List (String × JVal) → Except String Unit
  | [] => .ok ()
  | (k, v) :: rest =>
    if hasKey k sendJson then patchIsolationLoop reference sendJson rest
    else
      match lookupKey k reference with
      | none => .error "KeyError: original property missing from the response"
      | some r =>
        if pyEq v r then patchIsolationLoop reference sendJson rest
        else .error ("AssertionError: received value for " ++ k ++ " does not match the pre-patch data")

/-- OpenapiExecutors.validate_send_response: relocate to the created
sub-item when needed, then compare every sent property by == against the
response, then (for a truthy original_data) check PATCH isolation. -/
def validate_send_response (reference0 : JObj) (sendJson : JObj) (sendPath : String)
    (originalData : Option JObj) : Except String Unit :=
  match relocateReference reference0 sendJson sendPath with
  | .error e => .error e
  | .ok reference =>
    match sendEchoLoop reference sendJson with
    | .error e => .error e
    | .ok _ =>
      match originalData with
      | some od =>
        if od.isEmpty then .ok () else patchIsolationLoop reference sendJson od
      | none => .ok ()

mutual

/-- Modelled from the words of claim C3 (refinement reference, not from
the source): the comparison the spec describes for echo-validation -
lists accept by subset containment, dicts recurse per sent key, scalars
need exact equality. -/
def specEchoCompare : JVal → JVal → Bool
  | .arr xs, .arr ys => specEchoSubset xs ys
  | .obj xs, .obj ys => specEchoObj xs ys
  | a, b => pyEq a b

/-- Every sent element appears (by the same comparison) in the received
list. -/
def specEchoSubset : List JVal → List JVal → Bool
  | [], _ => true
  | x :: xs, ys => ys.any (fun y => specEchoCompare x y) && specEchoSubset xs ys

/-- Recurse per sent key into the received dict. -/
def specEchoObj : List (String × JVal) → JObj → Bool
  | [], _ => true
  | (k, v) :: rest, ys =>
    (match lookupKey k ys with
     | some w => specEchoCompare v w
     | none => false) && specEchoObj rest ys

end

/-- A value that is neither a dict nor a list (the merge loop leaves such
values unchanged). -/
def isScalar : JVal → Bool
  | .obj _ => false
  | .arr _ => false
  | _ => true

/-- A concrete character-picking oracle for closed runs. -/
def pickHeadChar : List Char → Char :=
  fun l => l.headD 'x'

/-- A concrete choice oracle on Dto-layer value lists for closed runs. -/
def pickHeadDVal : List DVal → DVal :=
  fun l => l.headD (.json .null)

/-!
Theorems.  Shared helper lemmas come first, then one theorem (with
counterexample / witness where required) per claim of the specification
review.
-/

theorem lookupKey_setKey_self (k : String) (v : JVal) :
    ∀ (kvs : JObj), lookupKey k (setKey k v kvs) = some v := by
  intro kvs
  induction kvs with
  | nil => simp [setKey, lookupKey]
  | cons kv rest ih =>
    obtain ⟨k2, v2⟩ := kv
    by_cases h : k2 = k
    · simp [setKey, h, lookupKey]
    · simp [setKey, h, lookupKey, ih]

theorem lookupKey_setKey_other {k k2 : String} (hne : k2 ≠ k) (v : JVal) :
    ∀ (kvs : JObj), lookupKey k2 (setKey k v kvs) = lookupKey k2 kvs := by
  intro kvs
  induction kvs with
  | nil =>
    simp only [setKey, lookupKey]
    rw [if_neg (fun hh => hne hh.symm)]
  | cons kv rest ih =>
    obtain ⟨k3, v3⟩ := kv
    by_cases h : k3 = k
    · subst h
      simp only [setKey, if_pos rfl, lookupKey]
      rw [if_neg (fun hh => hne hh.symm), if_neg (fun hh => hne hh.symm)]
    · simp only [setKey, if_neg h, lookupKey]
      by_cases h2 : k3 = k2
      · simp [h2]
      · simp [h2, ih]

theorem hasKey_setKey (k k2 : String) (v : JVal) (kvs : JObj) :
    hasKey k2 (setKey k v kvs) = (hasKey k2 kvs || k2 == k) := by
  by_cases h : k2 = k
  · subst h
    simp [hasKey, lookupKey_setKey_self]
  · have hne : k2 ≠ k := h
    simp [hasKey, lookupKey_setKey_other hne, h]

theorem hasKey_false_iff (k : String) (kvs : JObj) :
    hasKey k kvs = false ↔ ∀ kv ∈ kvs, kv.1 ≠ k := by
  induction kvs with
  | nil => simp [hasKey, lookupKey]
  | cons kv rest ih =>
    obtain ⟨k2, v2⟩ := kv
    by_cases h : k2 = k
    · simp [hasKey, lookupKey, h]
    · simp only [hasKey, lookupKey, if_neg h, List.mem_cons]
      constructor
      · intro hh kv2 hmem
        rcases hmem with hmem | hmem
        · rw [hmem]
          exact h
        · exact (ih.mp hh) kv2 hmem
      · intro hh
        exact ih.mpr (fun kv2 hmem => hh kv2 (Or.inr hmem))

theorem hasKey_true_iff (k : String) (kvs : JObj) :
    hasKey k kvs = true ↔ ∃ kv ∈ kvs, kv.1 = k := by
  induction kvs with
  | nil => simp [hasKey, lookupKey]
  | cons kv rest ih =>
    obtain ⟨k2, v2⟩ := kv
    by_cases h : k2 = k
    · subst h
      simp [hasKey, lookupKey]
    · simp only [hasKey, lookupKey, if_neg h, List.mem_cons]
      constructor
      · intro hh
        obtain ⟨kv2, hmem, hk⟩ := ih.mp hh
        exact ⟨kv2, Or.inr hmem, hk⟩
      · intro ⟨kv2, hmem, hk⟩
        rcases hmem with hmem | hmem
        · rw [hmem] at hk
          exact absurd hk h
        · exact ih.mpr ⟨kv2, hmem, hk⟩

/-- C1 counterexample: with no body or parameter relations, status 400
and default invalid-property status 422, test_endpoint only logs the
missing-mapping error and still performs the request; no AssertionError
is raised before sending, contrary to the claim that the test fails fast
instead of sending the request. -/
theorem C1_counterexample :
    test_endpoint_steps [] [] 400 422 true =
      [.logged_no_mapping_error 400, .perform_validated_request] ∧
    (test_endpoint_steps [] [] 400 422 true).contains .perform_validated_request = true ∧
    (test_endpoint_steps [] [] 400 422 true).all (fun s => !s.isRaisedAssertion) = true := by
  decide

/-- C1 (amended): for every error status with no body relations and no
parameter relations for that status and different from the configured
invalid-property default response, test_endpoint logs an error naming the
status code and still sends the request (perform_validated_request runs);
no AssertionError is raised on this path. -/
theorem C1_no_mapping_logs_and_still_sends
    (dtoRelations dtoParameterRelations : List RelationR)
    (statusCode invalidPropertyDefaultResponse : Int) (pickJson : Bool)
    (hstatus : 400 ≤ statusCode)
    (hdata : get_relations_for_error_code dtoRelations statusCode = [])
    (hparam : get_relations_for_error_code dtoParameterRelations statusCode = [])
    (hdefault : statusCode ≠ invalidPropertyDefaultResponse) :
    test_endpoint_steps dtoRelations dtoParameterRelations statusCode
        invalidPropertyDefaultResponse pickJson =
      [.logged_no_mapping_error statusCode, .perform_validated_request] := by
  have hlt : ¬ statusCode < 400 := by omega
  simp only [test_endpoint_steps, if_neg hlt, hdata, hparam, List.isEmpty_nil]
  simp [hdefault]

/-- C1 witness: the amended statement at the concrete counterexample
input. -/
theorem C1_witness :
    test_endpoint_steps [] [] 404 422 false =
      [.logged_no_mapping_error 404, .perform_validated_request] :=
  C1_no_mapping_logs_and_still_sends [] [] 404 422 false (by decide) (by decide)
    (by decide) (by decide)

/-- C10: with an empty data_relations list and a non-empty schema, both
OpenapiExecutors.invalidate_json_data and
OpenApiLibCore.get_invalid_json_data call dto.get_invalidated_data with
the keyword argument invalid_property_default_code, which the DtoBase
signature (schema, status_code) does not accept, so the call raises a
TypeError for every schema and the generic invalidation branch can never
return data. -/
theorem C10_generic_invalidation_typeerror (schema : JObj)
    (pickRel : List RelationR → RelationR) (hschema : schema ≠ []) :
    invalidate_json_data [] schema pickRel =
      .error "TypeError: get_invalidated_data got an unexpected keyword argument invalid_property_default_code" ∧
    get_invalid_json_data [] schema pickRel =
      .error "TypeError: get_invalidated_data got an unexpected keyword argument invalid_property_default_code" := by
  have hempty : schema.isEmpty = false := by
    cases schema with
    | nil => exact absurd rfl hschema
    | cons a rest => rfl
  constructor
  · simp [invalidate_json_data, hempty, bindKwargs, getInvalidatedDataParams,
      getInvalidatedDataCallKwargs, List.find?]
  · simp [get_invalid_json_data, hempty, bindKwargs, getInvalidatedDataParams,
      getInvalidatedDataCallKwargs, List.find?]

/-- C10 witness: the TypeError at a concrete non-empty schema. -/
theorem C10_witness :
    invalidate_json_data [] [("type", .str "string")] (fun _ => .idReference "p" "/x" 422) =
      .error "TypeError: get_invalidated_data got an unexpected keyword argument invalid_property_default_code" ∧
    get_invalid_json_data [] [("type", .str "string")] (fun _ => .idReference "p" "/x" 422) =
      .error "TypeError: get_invalidated_data got an unexpected keyword argument invalid_property_default_code" :=
  C10_generic_invalidation_typeerror [("type", .str "string")]
    (fun _ => .idReference "p" "/x" 422) (by decide)

/-- C4 counterexample: validate_resource_properties never consults
additionalProperties.  With schema properties id and name,
additionalProperties true and a response carrying an extra property, the
claimed validator accepts while the code raises an AssertionError on the
differing key sets. -/
theorem C4_counterexample :
    validate_resource_properties
      [("id", .str "1"), ("name", .str "x"), ("extra", .str "y")]
      [("id", .obj [("type", .str "string")]), ("name", .obj [("type", .str "string")])] =
      .error "AssertionError: Response schema violation: the response contains properties that are not specified in the schema. Expected: id, name Got: extra, id, name" ∧
    validate_resource_properties_claimC4
      [("id", .str "1"), ("name", .str "x"), ("extra", .str "y")]
      [("properties", .obj [("id", .obj [("type", .str "string")]),
                            ("name", .obj [("type", .str "string")])]),
       ("additionalProperties", .bool true)] = .ok () := by
  constructor
  · decide
  · decide

/-- C4 (amended): the validator compares the response property names with
the schema property names as sets; validation succeeds exactly when the
two key sets coincide (additionalProperties and required are never
consulted; any difference raises the AssertionError listing both sorted
name lists). -/
theorem C4_key_set_equality (resource schemaProperties : JObj) :
    validate_resource_properties resource schemaProperties = .ok () ↔
      ∀ k, hasKey k resource = hasKey k schemaProperties := by
  unfold validate_resource_properties
  by_cases h : sameKeySet resource schemaProperties
  · simp only [h, if_pos, true_iff]
    have h2 := h
    unfold sameKeySet at h2
    rw [Bool.and_eq_true, List.all_eq_true, List.all_eq_true] at h2
    intro k
    by_cases hk : hasKey k resource = true
    · obtain ⟨kv, hmem, hkk⟩ := (hasKey_true_iff k resource).mp hk
      have := h2.1 kv hmem
      rw [hkk] at this
      rw [hk, this]
    · have hkf : hasKey k resource = false := by
        cases hres : hasKey k resource
        · rfl
        · exact absurd hres hk
      rw [hkf]
      cases hsp : hasKey k schemaProperties
      · rfl
      · obtain ⟨kv, hmem, hkk⟩ := (hasKey_true_iff k schemaProperties).mp hsp
        have := h2.2 kv hmem
        rw [hkk] at this
        rw [this] at hkf
        cases hkf
  · have h2 : sameKeySet resource schemaProperties = false := by
      cases hres : sameKeySet resource schemaProperties
      · rfl
      · exact absurd hres h
    rw [h2]
    constructor
    · intro hh
      simp at hh
    · intro hall
      exfalso
      apply h
      unfold sameKeySet
      rw [Bool.and_eq_true, List.all_eq_true, List.all_eq_true]
      constructor
      · intro kv hmem
        have hk : hasKey kv.1 resource = true := (hasKey_true_iff kv.1 resource).mpr ⟨kv, hmem, rfl⟩
        rw [← hall kv.1]
        exact hk
      · intro kv hmem
        have hk : hasKey kv.1 schemaProperties = true :=
          (hasKey_true_iff kv.1 schemaProperties).mpr ⟨kv, hmem, rfl⟩
        rw [hall kv.1]
        exact hk

/-- C5 counterexample: merging a later allOf part whose scalar key "type"
collides with the base schema keeps the EARLIER value (the base's "a"),
contrary to the claim that the later part's scalar value wins. -/
theorem C5_counterexample :
    resolve_schema [("type", .str "a"), ("allOf", .arr [.obj [("type", .str "b")]])] =
      .ok [("type", .str "a")] ∧
    merge_schemas [("type", .str "a")] [("type", .str "b")] = .ok [("type", .str "a")] ∧
    JVal.str "a" ≠ JVal.str "b" := by
  refine ⟨?_, by decide, by decide⟩
  simp [resolve_schema, resolveParts, merge_schemas, mergeEntries, mergeStep,
    lookupKey, removeKey, setKey, dictUpdate, truthy]

/-- C6 counterexample: running OpenapiExecutors.resolve_schema (shallow
copies) on the heap mutates the properties dict at address 3, which is
nested inside the argument schema at address 0 - resolve is not
side-effect-free on its argument. -/
theorem C6_counterexample :
    hResolveSchema 10 exHeap 0 =
      .ok (7, [(0, .dict [("allOf", .ref 1), ("properties", .ref 3)]),
               (1, .list [.ref 2]),
               (2, .dict [("properties", .ref 4)]),
               (3, .dict [("b", .scalarS "vb"), ("a", .scalarS "va")]),
               (4, .dict [("a", .scalarS "va")]),
               (5, .dict [("properties", .ref 3)]),
               (6, .dict [("properties", .ref 4)]),
               (7, .dict [("properties", .ref 3)])]) ∧
    heapGet exHeap 3 = some (.dict [("b", .scalarS "vb")]) ∧
    (HCell.dict [("b", .scalarS "vb"), ("a", .scalarS "va")]) ≠
      .dict [("b", .scalarS "vb")] := by
  refine ⟨by decide, by decide, by decide⟩

/-- C7 counterexample: for an integer schema declaring minimum 0 (and no
maximum, enum or constraint values), get_invalid_value does not return
minimum - 1 = -1: the falsy-zero walrus guard skips the bound and the
function falls through to the change-the-data-type branch, returning a
random hex string. -/
theorem C7_counterexample :
    get_invalid_value [("type", .str "integer"), ("minimum", .num 0)] (.num 5) none
        "cafe" pickHeadChar = .ok (.json (.str "cafe")) ∧
    DVal.json (.str "cafe") ≠ .json (.num (0 - 1)) := by
  refine ⟨by decide, by decide⟩

/-- C7 (amended): for a numeric schema with no constraint values and no
enum, a truthy (nonzero) declared minimum yields minimum - 1, and when
the minimum is absent or zero a truthy (nonzero) declared maximum yields
maximum + 1; each returned value lies strictly outside the declared
range (below the minimum, respectively above the maximum). -/
theorem C7_numeric_out_of_bounds
    (valueSchema : JObj) (currentValue : JVal) (randHex : String)
    (pick : List Char → Char) (t : String) (m bigM : Int)
    (htype : lookupKey "type" valueSchema = some (.str t))
    (ht : t = "integer" ∨ t = "number")
    (henum : lookupKey "enum" valueSchema = none) :
    (lookupKey "minimum" valueSchema = some (.num m) → m ≠ 0 →
      get_invalid_value valueSchema currentValue none randHex pick =
        .ok (.json (.num (m - 1))) ∧ m - 1 < m) ∧
    ((lookupKey "minimum" valueSchema = none ∨
        lookupKey "minimum" valueSchema = some (.num 0)) →
      lookupKey "maximum" valueSchema = some (.num bigM) → bigM ≠ 0 →
      get_invalid_value valueSchema currentValue none randHex pick =
        .ok (.json (.num (bigM + 1))) ∧ bigM < bigM + 1) := by
  have hnum : ((JVal.str t) = .str "integer" || (JVal.str t) = .str "number") = true := by
    rcases ht with ht | ht <;> subst ht <;> decide
  constructor
  · intro hmin hm
    have htr : truthy (.num m) = true := by simp [truthy, hm]
    have hbounds : get_value_out_of_bounds valueSchema currentValue pick =
        .ok (some (.num (m - 1))) := by
      simp only [get_value_out_of_bounds, htype, hmin, htr, asNum]
      simp
      intro h1 h2
      rcases ht with ht | ht
      · exact absurd ht h1
      · exact absurd ht h2
    refine ⟨?_, by omega⟩
    simp [get_invalid_value, htype, henum, hbounds]
  · intro hminZero hmax hM
    have htr : truthy (.num bigM) = true := by simp [truthy, hM]
    have hmaxres : get_value_out_of_bounds_max valueSchema =
        .ok (some (.num (bigM + 1))) := by
      simp [get_value_out_of_bounds_max, hmax, htr, asNum]
    have hbounds : get_value_out_of_bounds valueSchema currentValue pick =
        .ok (some (.num (bigM + 1))) := by
      rcases hminZero with hmin | hmin
      · simp only [get_value_out_of_bounds, htype, hmin, hmaxres]
        simp
        intro h1 h2
        rcases ht with ht | ht
        · exact absurd ht h1
        · exact absurd ht h2
      · have htr0 : truthy (.num 0) = false := by decide
        simp only [get_value_out_of_bounds, htype, hmin, htr0, hmaxres]
        simp
        intro h1 h2
        rcases ht with ht | ht
        · exact absurd ht h1
        · exact absurd ht h2
    refine ⟨?_, by omega⟩
    simp [get_invalid_value, htype, henum, hbounds]

/-- C7 witness: the amended statement at concrete schemas, covering both
the nonzero-minimum case and the zero-minimum-with-maximum case. -/
theorem C7_witness :
    (get_invalid_value [("type", .str "integer"), ("minimum", .num 5)] (.num 7) none
        "cafe" pickHeadChar = .ok (.json (.num 4)) ∧ (5 : Int) - 1 < 5) ∧
    (get_invalid_value [("type", .str "integer"), ("minimum", .num 0), ("maximum", .num 10)]
        (.num 7) none "cafe" pickHeadChar = .ok (.json (.num 11)) ∧ (10 : Int) < 10 + 1) :=
  ⟨(C7_numeric_out_of_bounds [("type", .str "integer"), ("minimum", .num 5)] (.num 7)
      "cafe" pickHeadChar "integer" 5 0 (by decide) (Or.inl rfl) (by decide)).1
      (by decide) (by decide),
   (C7_numeric_out_of_bounds [("type", .str "integer"), ("minimum", .num 0), ("maximum", .num 10)]
      (.num 7) "cafe" pickHeadChar "integer" 0 10 (by decide) (Or.inl rfl) (by decide)).2
      (Or.inr (by decide)) (by decide) (by decide)⟩

theorem relocateReference_no_href {reference : JObj} (sendJson : JObj)
    (sendPath : String) (h : lookupKey "href" reference = none) :
    relocateReference reference sendJson sendPath = .ok reference := by
  unfold relocateReference
  rw [h]


theorem sendEchoLoop_ok_iff (reference : JObj) :
    ∀ (entries : List (String × JVal)),
      sendEchoLoop reference entries = .ok () ↔
        ∀ kv ∈ entries,
          lookupKey kv.1 reference = none ∨
          (kv.2 = .null ∧ ∃ r, lookupKey kv.1 reference = some r ∧
            inPyList r defaultClearedValues = true) ∨
          (kv.2 ≠ .null ∧ ∃ r, lookupKey kv.1 reference = some r ∧
            pyEq r kv.2 = true) := by
  intro entries
  induction entries with
  | nil => simp [sendEchoLoop]
  | cons kv rest ih =>
    obtain ⟨k, v⟩ := kv
    cases href : lookupKey k reference with
    | none =>
      have hstep : sendEchoLoop reference ((k, v) :: rest) = sendEchoLoop reference rest := by
        simp [sendEchoLoop, href]
      rw [hstep, ih]
      constructor
      · intro hall kv2 hmem
        rcases List.mem_cons.mp hmem with rfl | hmem
        · exact Or.inl href
        · exact hall kv2 hmem
      · intro hall kv2 hmem
        exact hall kv2 (List.mem_cons_of_mem _ hmem)
    | some r =>
      by_cases hv : v = JVal.null
      · subst hv
        cases hin : inPyList r defaultClearedValues with
        | true =>
          have hstep : sendEchoLoop reference ((k, JVal.null) :: rest) =
              sendEchoLoop reference rest := by
            simp [sendEchoLoop, href, hin]
          rw [hstep, ih]
          constructor
          · intro hall kv2 hmem
            rcases List.mem_cons.mp hmem with rfl | hmem
            · exact Or.inr (Or.inl ⟨rfl, r, href, hin⟩)
            · exact hall kv2 hmem
          · intro hall kv2 hmem
            exact hall kv2 (List.mem_cons_of_mem _ hmem)
        | false =>
          have hstep : sendEchoLoop reference ((k, JVal.null) :: rest) =
              .error ("AssertionError: received value for " ++ k ++
                " does not match the sent None") := by
            simp [sendEchoLoop, href, hin]
          rw [hstep]
          constructor
          · intro hok
            cases hok
          · intro hall
            exfalso
            have hh := hall (k, JVal.null) (List.mem_cons_self _ _)
            rcases hh with h1 | ⟨_, r2, hr2, hin2⟩ | ⟨hne, _⟩
            · rw [href] at h1
              cases h1
            · rw [href] at hr2
              cases hr2
              rw [hin2] at hin
              cases hin
            · exact hne rfl
      · cases hpe : pyEq r v with
        | true =>
          have hstep : sendEchoLoop reference ((k, v) :: rest) =
              sendEchoLoop reference rest := by
            simp [sendEchoLoop, href, hv, hpe]
          rw [hstep, ih]
          constructor
          · intro hall kv2 hmem
            rcases List.mem_cons.mp hmem with rfl | hmem
            · exact Or.inr (Or.inr ⟨hv, r, href, hpe⟩)
            · exact hall kv2 hmem
          · intro hall kv2 hmem
            exact hall kv2 (List.mem_cons_of_mem _ hmem)
        | false =>
          have hstep : sendEchoLoop reference ((k, v) :: rest) =
              .error ("AssertionError: received value for " ++ k ++
                " does not match the sent value") := by
            simp [sendEchoLoop, href, hv, hpe]
          rw [hstep]
          constructor
          · intro hok
            cases hok
          · intro hall
            exfalso
            have hh := hall (k, v) (List.mem_cons_self _ _)
            rcases hh with h1 | ⟨hnull, _⟩ | ⟨_, r2, hr2, hpe2⟩
            · rw [href] at h1
              cases h1
            · exact hv hnull
            · rw [href] at hr2
              cases hr2
              rw [hpe2] at hpe
              cases hpe

theorem patchIsolationLoop_ok_mem (reference sendJson : JObj) :
    ∀ (entries : List (String × JVal)),
      patchIsolationLoop reference sendJson entries = .ok () →
      ∀ kv ∈ entries, hasKey kv.1 sendJson = false →
        ∃ r, lookupKey kv.1 reference = some r ∧ pyEq kv.2 r = true := by
  intro entries
  induction entries with
  | nil => simp
  | cons kv rest ih =>
    obtain ⟨k, v⟩ := kv
    intro hok kv2 hmem hnot
    cases hk : hasKey k sendJson with
    | true =>
      have hstep : patchIsolationLoop reference sendJson ((k, v) :: rest) =
          patchIsolationLoop reference sendJson rest := by
        simp [patchIsolationLoop, hk]
      rw [hstep] at hok
      rcases List.mem_cons.mp hmem with rfl | hmem
      · rw [hnot] at hk
        cases hk
      · exact ih hok kv2 hmem hnot
    | false =>
      cases href : lookupKey k reference with
      | none =>
        have hstep : patchIsolationLoop reference sendJson ((k, v) :: rest) =
            .error "KeyError: original property missing from the response" := by
          simp [patchIsolationLoop, hk, href]
        rw [hstep] at hok
        cases hok
      | some r =>
        cases hpe : pyEq v r with
        | true =>
          have hstep : patchIsolationLoop reference sendJson ((k, v) :: rest) =
              patchIsolationLoop reference sendJson rest := by
            simp [patchIsolationLoop, hk, href, hpe]
          rw [hstep] at hok
          rcases List.mem_cons.mp hmem with rfl | hmem
          · exact ⟨r, href, hpe⟩
          · exact ih hok kv2 hmem hnot
        | false =>
          have hstep : patchIsolationLoop reference sendJson ((k, v) :: rest) =
              .error ("AssertionError: received value for " ++ k ++
                " does not match the pre-patch data") := by
            simp [patchIsolationLoop, hk, href, hpe]
          rw [hstep] at hok
          cases hok

/-- Evaluation of validate_send_response when the response has no href
(no relocation happens). -/
theorem validate_send_response_unfold (reference sendJson : JObj) (sendPath : String)
    (od : Option JObj) (hhref : lookupKey "href" reference = none) :
    validate_send_response reference sendJson sendPath od =
      (match sendEchoLoop reference sendJson with
       | .error e => .error e
       | .ok _ =>
         match od with
         | some odd =>
           if odd.isEmpty then .ok () else patchIsolationLoop reference sendJson odd
         | none => .ok ()) := by
  unfold validate_send_response
  rw [relocateReference_no_href sendJson sendPath hhref]

/-- C3 counterexample: a sent list whose every element appears in the
received list (sent [1] against received [1, 2]).  The claimed
subset-containment comparison accepts it, but validate_send_response
compares with plain == and raises an AssertionError. -/
theorem C3_counterexample :
    validate_send_response [("a", .arr [.num 1, .num 2])] [("a", .arr [.num 1])] "/p" none =
      .error "AssertionError: received value for a does not match the sent value" ∧
    specEchoCompare (.arr [.num 1]) (.arr [.num 1, .num 2]) = true ∧
    specEchoObj [("a", .arr [.num 1])] [("a", .arr [.num 1, .num 2])] = true := by
  refine ⟨by decide, by decide, by decide⟩

/-- C3 (amended): without the href relocation special case,
validate_send_response succeeds exactly when every sent property is
either absent from the response, or was sent as None and the received
value is among the cleared defaults, or the received value equals the
sent one under plain Python == - lists and dicts included, with no
subset-containment and no per-key recursion. -/
theorem C3_echo_is_plain_equality (reference sendJson : JObj) (sendPath : String)
    (hhref : lookupKey "href" reference = none) :
    validate_send_response reference sendJson sendPath none = .ok () ↔
      ∀ kv ∈ sendJson,
        lookupKey kv.1 reference = none ∨
        (kv.2 = .null ∧ ∃ r, lookupKey kv.1 reference = some r ∧
          inPyList r defaultClearedValues = true) ∨
        (kv.2 ≠ .null ∧ ∃ r, lookupKey kv.1 reference = some r ∧
          pyEq r kv.2 = true) := by
  rw [validate_send_response_unfold reference sendJson sendPath none hhref]
  rw [← sendEchoLoop_ok_iff reference sendJson]
  cases hloop : sendEchoLoop reference sendJson with
  | ok u =>
    cases u
    exact ⟨fun _ => rfl, fun _ => rfl⟩
  | error e =>
    constructor
    · intro hh
      exact absurd hh (by simp)
    · intro hh
      exact absurd hh (by simp)

/-- C3 witness: the amended equivalence applied at a concrete response
and body (a scalar match and a property absent from the response). -/
theorem C3_witness :
    validate_send_response [("a", .num 1)] [("a", .num 1), ("pw", .str "s")] "/p" none =
      .ok () :=
  (C3_echo_is_plain_equality [("a", .num 1)] [("a", .num 1), ("pw", .str "s")] "/p"
      (by decide)).mpr
    (by
      intro kv hmem
      rcases List.mem_cons.mp hmem with rfl | hmem
      · exact Or.inr (Or.inr (by refine ⟨by decide, .num 1, by decide, by decide⟩))
      · rcases List.mem_cons.mp hmem with rfl | hmem
        · exact Or.inl (by decide)
        · cases hmem)

/-- C8: PATCH isolation.  When validate_send_response succeeds with
original pre-patch data (no href relocation involved), every property of
the original that is absent from the sent delta is unchanged in the
response; with original a=1,b=2 and patch a=9 the response a=9,b=2 is
accepted while b=3 is rejected (see the witness). -/
theorem C8_patch_isolation (reference sendJson originalData : JObj)
    (sendPath : String) (k : String) (v : JVal)
    (hhref : lookupKey "href" reference = none)
    (hok : validate_send_response reference sendJson sendPath (some originalData) = .ok ())
    (hmem : (k, v) ∈ originalData)
    (hnotsent : hasKey k sendJson = false) :
    ∃ r, lookupKey k reference = some r ∧ pyEq v r = true := by
  rw [validate_send_response_unfold reference sendJson sendPath (some originalData) hhref]
    at hok
  cases hloop : sendEchoLoop reference sendJson with
  | error e =>
    rw [hloop] at hok
    exact absurd hok (by simp)
  | ok u =>
    cases u
    rw [hloop] at hok
    have hok2 : (if originalData.isEmpty then Except.ok ()
        else patchIsolationLoop reference sendJson originalData) = .ok () := hok
    by_cases hemp : originalData.isEmpty
    · cases originalData with
      | nil => cases hmem
      | cons a rest => cases hemp
    · rw [if_neg hemp] at hok2
      exact patchIsolationLoop_ok_mem reference sendJson originalData hok2 (k, v) hmem hnotsent

/-- C8 witness: the PATCH isolation law at the claim concrete example -
response a=9,b=2 for patch a=9 over original a=1,b=2 is accepted and
leaves b at its original value, while response b=3 is rejected with an
AssertionError. -/
theorem C8_witness :
    (∃ r, lookupKey "b" [("a", .num 9), ("b", .num 2)] = some r ∧ pyEq (.num 2) r = true) ∧
    validate_send_response [("a", .num 9), ("b", .num 3)] [("a", .num 9)] "/e"
      (some [("a", .num 1), ("b", .num 2)]) =
      .error "AssertionError: received value for b does not match the pre-patch data" :=
  ⟨C8_patch_isolation [("a", .num 9), ("b", .num 2)] [("a", .num 9)]
      [("a", .num 1), ("b", .num 2)] "/e" "b" (.num 2) (by decide) (by decide)
      (by decide) (by decide),
   by decide⟩

theorem mergeStep_lookup_other {acc acc2 : JObj} {k k2 : String} {v : JVal}
    (hne : k ≠ k2) (hstep : mergeStep acc k2 v = .ok acc2) :
    lookupKey k acc2 = lookupKey k acc := by
  unfold mergeStep at hstep
  cases hold : lookupKey k2 acc with
  | none =>
    rw [hold] at hstep
    cases hstep
    exact lookupKey_setKey_other hne v acc
  | some oldV =>
    rw [hold] at hstep
    cases v with
    | obj kvs2 =>
      cases oldV with
      | obj kvs1 =>
        cases hstep
        exact lookupKey_setKey_other hne _ acc
      | null => cases hstep
      | bool b => cases hstep
      | num n => cases hstep
      | str s => cases hstep
      | arr xs => cases hstep
    | arr xs2 =>
      cases oldV with
      | arr xs1 =>
        cases hstep
        exact lookupKey_setKey_other hne _ acc
      | null => cases hstep
      | bool b => cases hstep
      | num n => cases hstep
      | str s => cases hstep
      | obj kvs => cases hstep
    | null =>
      cases hstep
      rfl
    | bool b =>
      cases hstep
      rfl
    | num n =>
      cases hstep
      rfl
    | str s =>
      cases hstep
      rfl

theorem mergeStep_lookup_self {acc acc2 : JObj} {k : String} {v1 v2 : JVal}
    (hold : lookupKey k acc = some v1) (hstep : mergeStep acc k v2 = .ok acc2) :
    (isScalar v2 = true → lookupKey k acc2 = some v1) ∧
    (∀ kvs1 kvs2, v1 = .obj kvs1 → v2 = .obj kvs2 →
      lookupKey k acc2 = some (.obj (dictUpdate kvs1 kvs2))) ∧
    (∀ xs1 xs2, v1 = .arr xs1 → v2 = .arr xs2 →
      lookupKey k acc2 = some (.arr (xs1 ++ xs2))) := by
  unfold mergeStep at hstep
  rw [hold] at hstep
  cases v2 with
  | obj kvs2 =>
    refine ⟨fun hsc => (by cases hsc), ?_, fun xs1 xs2 h1 h2 => (by cases h2)⟩
    intro kvs1 kvs2b h1 h2
    cases h2
    subst h1
    cases hstep
    exact lookupKey_setKey_self k _ acc
  | arr xs2 =>
    refine ⟨fun hsc => (by cases hsc), fun kvs1 kvs2 h1 h2 => (by cases h2), ?_⟩
    intro xs1 xs2b h1 h2
    cases h2
    subst h1
    cases hstep
    exact lookupKey_setKey_self k _ acc
  | null =>
    cases hstep
    exact ⟨fun _ => hold, fun kvs1 kvs2 h1 h2 => (by cases h2),
      fun xs1 xs2 h1 h2 => (by cases h2)⟩
  | bool b =>
    cases hstep
    exact ⟨fun _ => hold, fun kvs1 kvs2 h1 h2 => (by cases h2),
      fun xs1 xs2 h1 h2 => (by cases h2)⟩
  | num n =>
    cases hstep
    exact ⟨fun _ => hold, fun kvs1 kvs2 h1 h2 => (by cases h2),
      fun xs1 xs2 h1 h2 => (by cases h2)⟩
  | str s =>
    cases hstep
    exact ⟨fun _ => hold, fun kvs1 kvs2 h1 h2 => (by cases h2),
      fun xs1 xs2 h1 h2 => (by cases h2)⟩

theorem mergeEntries_lookup_of_no_key {k : String} :
    ∀ (entries : List (String × JVal)) (acc m : JObj),
      mergeEntries acc entries = .ok m → (∀ kv ∈ entries, kv.1 ≠ k) →
      lookupKey k m = lookupKey k acc := by
  intro entries
  induction entries with
  | nil =>
    intro acc m hm _
    cases hm
    rfl
  | cons kv rest ih =>
    intro acc m hm hnk
    obtain ⟨k2, v2⟩ := kv
    unfold mergeEntries at hm
    cases hstep : mergeStep acc k2 v2 with
    | error e =>
      rw [hstep] at hm
      cases hm
    | ok acc2 =>
      rw [hstep] at hm
      have hk2 : k ≠ k2 := fun hh =>
        (hnk (k2, v2) (List.mem_cons_self _ _)) hh.symm
      rw [ih acc2 m hm (fun kv2 hmem => hnk kv2 (List.mem_cons_of_mem _ hmem))]
      exact mergeStep_lookup_other hk2 hstep

/-- C5 (amended): when a key occurs in both schemas being merged, a
scalar (neither dict nor list) value from the later schema is ignored -
the merged schema keeps the EARLIER schema's value (the source only logs
"not updated"); dict values are merged with dict.update (the later
part's inner keys override) and list values are concatenated. -/
theorem C5_merge_earlier_scalar_wins
    (first second m : JObj) (k : String) (v1 v2 : JVal)
    (hm : merge_schemas first second = .ok m)
    (hnodup : (second.map Prod.fst).Nodup)
    (h1 : lookupKey k first = some v1)
    (h2 : lookupKey k second = some v2) :
    (isScalar v2 = true → lookupKey k m = some v1) ∧
    (∀ kvs1 kvs2, v1 = .obj kvs1 → v2 = .obj kvs2 →
      lookupKey k m = some (.obj (dictUpdate kvs1 kvs2))) ∧
    (∀ xs1 xs2, v1 = .arr xs1 → v2 = .arr xs2 →
      lookupKey k m = some (.arr (xs1 ++ xs2))) := by
  induction second generalizing first v1 with
  | nil => cases h2
  | cons kv rest ih =>
    obtain ⟨k2, v2b⟩ := kv
    unfold merge_schemas at hm
    unfold mergeEntries at hm
    cases hstep : mergeStep first k2 v2b with
    | error e =>
      rw [hstep] at hm
      cases hm
    | ok acc2 =>
      rw [hstep] at hm
      have hnd : (∀ x, (k2, x) ∉ rest) ∧ (List.map Prod.fst rest).Nodup := by
        simpa using hnodup
      by_cases hk : k2 = k
      · subst hk
        have hv2 : v2b = v2 := by
          unfold lookupKey at h2
          rw [if_pos rfl] at h2
          cases h2
          rfl
        subst hv2
        have hrest : ∀ kv2 ∈ rest, kv2.1 ≠ k2 := by
          intro kv2 hmem hh
          apply hnd.1 kv2.2
          rw [← hh]
          simpa using hmem
        have hm2 : lookupKey k2 m = lookupKey k2 acc2 :=
          mergeEntries_lookup_of_no_key rest acc2 m hm hrest
        have hsl := mergeStep_lookup_self h1 hstep
        refine ⟨fun hsc => ?_, fun kvs1 kvs2 ha hb => ?_, fun xs1 xs2 ha hb => ?_⟩
        · rw [hm2]
          exact hsl.1 hsc
        · rw [hm2]
          exact hsl.2.1 kvs1 kvs2 ha hb
        · rw [hm2]
          exact hsl.2.2 xs1 xs2 ha hb
      · have hk2 : k ≠ k2 := fun hh => hk hh.symm
        have h1b : lookupKey k acc2 = some v1 := by
          rw [mergeStep_lookup_other hk2 hstep]
          exact h1
        have h2b : lookupKey k rest = some v2 := by
          unfold lookupKey at h2
          rw [if_neg hk] at h2
          exact h2
        exact ih acc2 v1 hm hnd.2 h1b h2b

/-- C5 witness: the three merge behaviours at a concrete pair of schemas
(scalar type kept from the first schema, properties dicts merged,
required lists concatenated). -/
theorem C5_witness :
    (lookupKey "type"
      [("type", .str "a"), ("required", .arr [.str "x"]),
       ("properties", .obj [("p1", .num 1)])] = some (.str "a") →
     lookupKey "type"
      [("type", .str "a"), ("required", .arr [.str "x", .str "y"]),
       ("properties", .obj [("p1", .num 1), ("p2", .num 2)])] = some (.str "a")) ∧
    lookupKey "type"
      [("type", .str "a"), ("required", .arr [.str "x", .str "y"]),
       ("properties", .obj [("p1", .num 1), ("p2", .num 2)])] = some (.str "a") := by
  have hmain := C5_merge_earlier_scalar_wins
    [("type", .str "a"), ("required", .arr [.str "x"]), ("properties", .obj [("p1", .num 1)])]
    [("type", .str "b"), ("required", .arr [.str "y"]), ("properties", .obj [("p2", .num 2)])]
    [("type", .str "a"), ("required", .arr [.str "x", .str "y"]),
     ("properties", .obj [("p1", .num 1), ("p2", .num 2)])]
    "type" (.str "a") (.str "b") (by decide) (by decide) (by decide) (by decide)
  exact ⟨fun _ => hmain.1 (by decide), hmain.1 (by decide)⟩

theorem lookupKey_removeKey_self (k : String) (kvs : JObj) :
    lookupKey k (removeKey k kvs) = none := by
  induction kvs with
  | nil => rfl
  | cons kv rest ih =>
    obtain ⟨k2, v2⟩ := kv
    unfold removeKey at ih ⊢
    rw [List.filter_cons]
    by_cases h : k2 = k
    · simp [h, ih]
    · simp [h, lookupKey, ih]

theorem hasKey_removeKey_self (k : String) (kvs : JObj) :
    hasKey k (removeKey k kvs) = false := by
  simp [hasKey, lookupKey_removeKey_self]

theorem lookupKey_of_hasKey_false {k : String} {kvs : JObj}
    (h : hasKey k kvs = false) : lookupKey k kvs = none := by
  unfold hasKey at h
  cases hl : lookupKey k kvs with
  | none => rfl
  | some v =>
    rw [hl] at h
    cases h

theorem mergeStep_hasKey_false {acc acc2 : JObj} {bigK k : String} {v : JVal}
    (hacc : hasKey bigK acc = false) (hne : k ≠ bigK)
    (hstep : mergeStep acc k v = .ok acc2) : hasKey bigK acc2 = false := by
  have hset : ∀ (w : JVal), hasKey bigK (setKey k w acc) = false := by
    intro w
    have hbk : (bigK == k) = false := by
      cases hb : (bigK == k)
      · rfl
      · have heq : bigK = k := by simpa using hb
        exact absurd heq.symm hne
    rw [hasKey_setKey, hacc, hbk]
    rfl
  unfold mergeStep at hstep
  cases hold : lookupKey k acc with
  | none =>
    rw [hold] at hstep
    cases hstep
    exact hset v
  | some oldV =>
    rw [hold] at hstep
    cases v with
    | obj kvs2 =>
      cases oldV with
      | obj kvs1 =>
        cases hstep
        exact hset _
      | null => cases hstep
      | bool b => cases hstep
      | num n => cases hstep
      | str s => cases hstep
      | arr xs => cases hstep
    | arr xs2 =>
      cases oldV with
      | arr xs1 =>
        cases hstep
        exact hset _
      | null => cases hstep
      | bool b => cases hstep
      | num n => cases hstep
      | str s => cases hstep
      | obj kvs => cases hstep
    | null =>
      cases hstep
      exact hacc
    | bool b =>
      cases hstep
      exact hacc
    | num n =>
      cases hstep
      exact hacc
    | str s =>
      cases hstep
      exact hacc

theorem mergeEntries_hasKey_false {bigK : String} :
    ∀ (entries : List (String × JVal)) (acc m : JObj),
      hasKey bigK acc = false → (∀ kv ∈ entries, kv.1 ≠ bigK) →
      mergeEntries acc entries = .ok m → hasKey bigK m = false := by
  intro entries
  induction entries with
  | nil =>
    intro acc m hacc _ hm
    cases hm
    exact hacc
  | cons kv rest ih =>
    intro acc m hacc hnk hm
    obtain ⟨k2, v2⟩ := kv
    unfold mergeEntries at hm
    cases hstep : mergeStep acc k2 v2 with
    | error e =>
      rw [hstep] at hm
      cases hm
    | ok acc2 =>
      rw [hstep] at hm
      have hne : k2 ≠ bigK := hnk (k2, v2) (List.mem_cons_self _ _)
      exact ih acc2 m (mergeStep_hasKey_false hacc hne hstep)
        (fun kv2 hmem => hnk kv2 (List.mem_cons_of_mem _ hmem)) hm

/-- Every successful resolve_schema result has no allOf key left. -/
theorem resolve_schema_no_allOf :
    ∀ (kvs : JObj), ∀ (r : JObj), resolve_schema kvs = .ok r →
      hasKey "allOf" r = false := by
  refine resolve_schema.induct
    (fun kvs => ∀ r, resolve_schema kvs = .ok r → hasKey "allOf" r = false)
    (fun parts acc => hasKey "allOf" acc = false →
      ∀ r, resolveParts parts acc = .ok r → hasKey "allOf" r = false)
    ?_ ?_ ?_ ?_ ?_ ?_ ?_ ?_ ?_ ?_
  · intro kvs hlook r h
    unfold resolve_schema at h
    rw [hlook] at h
    have h2 : (Except.ok kvs : Except String JObj) = .ok r := h
    cases h2
    simp [hasKey, hlook]
  · intro kvs parts hlook htr ih r h
    unfold resolve_schema at h
    rw [hlook] at h
    have h2 : (if truthy (.arr parts) = true then
        resolveParts parts (removeKey "allOf" kvs)
      else .ok (removeKey "allOf" kvs)) = .ok r := h
    rw [if_pos htr] at h2
    exact ih (hasKey_removeKey_self _ _) r h2
  · intro kvs parts hlook htr r h
    unfold resolve_schema at h
    rw [hlook] at h
    have h2 : (if truthy (.arr parts) = true then
        resolveParts parts (removeKey "allOf" kvs)
      else .ok (removeKey "allOf" kvs)) = .ok r := h
    rw [if_neg htr] at h2
    cases h2
    exact hasKey_removeKey_self _ _
  · intro kvs v hnarr hlook htr r h
    unfold resolve_schema at h
    rw [hlook] at h
    cases v with
    | arr parts => exact absurd rfl (hnarr parts)
    | null =>
      cases htr
    | bool b =>
      have h2 : (if truthy (.bool b) = true then
          (.error "TypeError: allOf is not a list of schemas" : Except String JObj)
        else .ok (removeKey "allOf" kvs)) = .ok r := h
      rw [if_pos htr] at h2
      cases h2
    | num n =>
      have h2 : (if truthy (.num n) = true then
          (.error "TypeError: allOf is not a list of schemas" : Except String JObj)
        else .ok (removeKey "allOf" kvs)) = .ok r := h
      rw [if_pos htr] at h2
      cases h2
    | str s =>
      have h2 : (if truthy (.str s) = true then
          (.error "TypeError: allOf is not a list of schemas" : Except String JObj)
        else .ok (removeKey "allOf" kvs)) = .ok r := h
      rw [if_pos htr] at h2
      cases h2
    | obj kvs2 =>
      have h2 : (if truthy (.obj kvs2) = true then
          (.error "TypeError: allOf is not a list of schemas" : Except String JObj)
        else .ok (removeKey "allOf" kvs)) = .ok r := h
      rw [if_pos htr] at h2
      cases h2
  · intro kvs v hnarr hlook htr r h
    unfold resolve_schema at h
    rw [hlook] at h
    cases v with
    | arr parts => exact absurd rfl (hnarr parts)
    | null =>
      have h2 : (if truthy JVal.null = true then
          (.error "TypeError: allOf is not a list of schemas" : Except String JObj)
        else .ok (removeKey "allOf" kvs)) = .ok r := h
      rw [if_neg htr] at h2
      cases h2
      exact hasKey_removeKey_self _ _
    | bool b =>
      have h2 : (if truthy (.bool b) = true then
          (.error "TypeError: allOf is not a list of schemas" : Except String JObj)
        else .ok (removeKey "allOf" kvs)) = .ok r := h
      rw [if_neg htr] at h2
      cases h2
      exact hasKey_removeKey_self _ _
    | num n =>
      have h2 : (if truthy (.num n) = true then
          (.error "TypeError: allOf is not a list of schemas" : Except String JObj)
        else .ok (removeKey "allOf" kvs)) = .ok r := h
      rw [if_neg htr] at h2
      cases h2
      exact hasKey_removeKey_self _ _
    | str s =>
      have h2 : (if truthy (.str s) = true then
          (.error "TypeError: allOf is not a list of schemas" : Except String JObj)
        else .ok (removeKey "allOf" kvs)) = .ok r := h
      rw [if_neg htr] at h2
      cases h2
      exact hasKey_removeKey_self _ _
    | obj kvs2 =>
      have h2 : (if truthy (.obj kvs2) = true then
          (.error "TypeError: allOf is not a list of schemas" : Except String JObj)
        else .ok (removeKey "allOf" kvs)) = .ok r := h
      rw [if_neg htr] at h2
      cases h2
      exact hasKey_removeKey_self _ _
  · intro acc hacc r h
    unfold resolveParts at h
    have h2 : (Except.ok acc : Except String JObj) = .ok r := h
    cases h2
    exact hacc
  · intro acc pkvs rest acc2 hres acc3 hmerge ih1 ih2 hacc r h
    unfold resolveParts at h
    rw [hres] at h
    have h2 : (match merge_schemas acc acc2 with
        | .ok acc4 => resolveParts rest acc4
        | .error e => (.error e : Except String JObj)) = .ok r := h
    rw [hmerge] at h2
    have h3 : resolveParts rest acc3 = .ok r := h2
    have hacc2 : hasKey "allOf" acc2 = false := ih1 acc2 hres
    have hacc3 : hasKey "allOf" acc3 = false := by
      have hnk : ∀ kv ∈ acc2, kv.1 ≠ "allOf" := (hasKey_false_iff _ _).mp hacc2
      exact mergeEntries_hasKey_false acc2 acc acc3 hacc hnk hmerge
    exact ih2 hacc3 r h3
  · intro acc pkvs rest acc2 hres e hmerge ih1 hacc r h
    unfold resolveParts at h
    rw [hres] at h
    have h2 : (match merge_schemas acc acc2 with
        | .ok acc4 => resolveParts rest acc4
        | .error e2 => (.error e2 : Except String JObj)) = .ok r := h
    rw [hmerge] at h2
    have h3 : (Except.error e : Except String JObj) = .ok r := h2
    cases h3
  · intro acc pkvs rest e hres ih1 hacc r h
    unfold resolveParts at h
    rw [hres] at h
    have h2 : (Except.error e : Except String JObj) = .ok r := h
    cases h2
  · intro acc head tail hnobj hacc r h
    unfold resolveParts at h
    cases head with
    | obj pkvs => exact absurd rfl (hnobj pkvs)
    | null => cases h
    | bool b => cases h
    | num n => cases h
    | str s => cases h
    | arr xs => cases h

/-- An allOf-free schema resolves to itself. -/
theorem resolve_schema_of_no_allOf {kvs : JObj} (h : hasKey "allOf" kvs = false) :
    resolve_schema kvs = .ok kvs := by
  unfold resolve_schema
  rw [lookupKey_of_hasKey_false h]

/-- C6 (amended): schema resolution is idempotent - whenever
resolve_schema succeeds, resolving the result again returns it unchanged
(the result never contains an allOf key).  Side-effect-freeness does NOT
hold for the executor variant: its shallow copies let the merge loop
mutate dicts nested in the argument (see the counterexample); the
libcore variant deepcopies and leaves its argument untouched. -/
theorem C6_resolve_schema_idempotent (kvs r : JObj)
    (h : resolve_schema kvs = .ok r) : resolve_schema r = .ok r :=
  resolve_schema_of_no_allOf (resolve_schema_no_allOf kvs r h)

/-- C6 witness: idempotence applied to a concrete schema with an allOf
composition. -/
theorem C6_witness :
    resolve_schema [("properties", .obj [("b", .str "t"), ("a", .str "s")])] =
      .ok [("properties", .obj [("b", .str "t"), ("a", .str "s")])] :=
  C6_resolve_schema_idempotent
    [("allOf", .arr [.obj [("properties", .obj [("a", .str "s")])]]),
     ("properties", .obj [("b", .str "t")])]
    [("properties", .obj [("b", .str "t"), ("a", .str "s")])]
    (by simp [resolve_schema, resolveParts, merge_schemas, mergeEntries, mergeStep,
      lookupKey, removeKey, setKey, dictUpdate, truthy])

theorem dLookupKey_dSetKey_other {k k2 : String} (hne : k2 ≠ k) (v : DVal) :
    ∀ (kvs : List (String × DVal)), dLookupKey k2 (dSetKey k v kvs) = dLookupKey k2 kvs := by
  intro kvs
  induction kvs with
  | nil =>
    simp only [dSetKey, dLookupKey]
    rw [if_neg (fun hh => hne hh.symm)]
  | cons kv rest ih =>
    obtain ⟨k3, v3⟩ := kv
    by_cases h : k3 = k
    · subst h
      simp only [dSetKey, if_pos rfl, dLookupKey]
      rw [if_neg (fun hh => hne hh.symm), if_neg (fun hh => hne hh.symm)]
    · simp only [dSetKey, if_neg h, dLookupKey]
      by_cases h2 : k3 = k2
      · simp [h2]
      · simp [h2, ih]

theorem dHasKey_dSetKey_false {name k : String} {acc : List (String × DVal)}
    (hne : k ≠ name) (h : dHasKey name acc = false) (v : DVal) :
    dHasKey name (dSetKey k v acc) = false := by
  unfold dHasKey at h ⊢
  rw [dLookupKey_dSetKey_other (fun hh => hne hh.symm) v acc]
  exact h

theorem jsonDataStepTail_ok (relations : List RelationR) (k : String) (vs0 : JVal)
    (rest : List (String × JVal)) (operationId : Option String)
    (fetchId : String → String) (validValue : JObj → JVal)
    (pickD : List DVal → DVal) (acc body : List (String × DVal))
    (propertyType : JVal) (vs : JObj)
    (hok : jsonDataStepTail relations (k, vs0) rest operationId fetchId validValue
      pickD acc propertyType vs = .ok body) :
    ∃ w, jsonDataLoop relations rest operationId fetchId validValue pickD
      (dSetKey k w acc) = .ok body := by
  unfold jsonDataStepTail at hok
  by_cases hobj : (propertyType == JVal.str "object") = true
  · rw [if_pos hobj] at hok
    cases hrec : getJsonDataForDtoClassObj [] vs (some "") fetchId validValue pickD with
    | ok objData =>
      rw [hrec] at hok
      exact ⟨.nested objData, hok⟩
    | error e =>
      rw [hrec] at hok
      cases hok
  · rw [if_neg hobj] at hok
    exact ⟨.json (validValue vs), hok⟩

theorem jsonDataLoop_keeps_ignored_out (relations : List RelationR)
    (operationId : Option String) (fetchId : String → String)
    (validValue : JObj → JVal) (pickD : List DVal → DVal) (name : String)
    (hign : (get_constrained_values relations name).contains DVal.ignoreSentinel = true) :
    ∀ (pending : List (String × JVal)) (acc body : List (String × DVal)),
      jsonDataLoop relations pending operationId fetchId validValue pickD acc = .ok body →
      dHasKey name acc = false → dHasKey name body = false := by
  intro pending
  induction pending with
  | nil =>
    intro acc body hok hacc
    unfold jsonDataLoop at hok
    have h2 : (Except.ok acc : Except String (List (String × DVal))) = .ok body := hok
    cases h2
    exact hacc
  | cons kv rest ih =>
    intro acc body hok hacc
    obtain ⟨k, vs0⟩ := kv
    cases vs0 with
    | obj vs =>
      cases htype : lookupKey "type" vs with
      | none =>
        have hstep : jsonDataLoop relations ((k, JVal.obj vs) :: rest) operationId
            fetchId validValue pickD acc = .error "KeyError: type" := by
          simp [jsonDataLoop, htype]
        rw [hstep] at hok
        cases hok
      | some pt =>
        have hkne : (get_constrained_values relations k).isEmpty = true → k ≠ name := by
          intro hemp hh
          subst hh
          rw [List.isEmpty_iff.mp hemp] at hign
          cases hign
        cases hc : (get_constrained_values relations k).isEmpty with
        | false =>
          cases hig : (get_constrained_values relations k).contains DVal.ignoreSentinel with
          | true =>
            have higm : DVal.ignoreSentinel ∈ get_constrained_values relations k := by
              simpa using hig
            have hstep : jsonDataLoop relations ((k, JVal.obj vs) :: rest) operationId
                fetchId validValue pickD acc =
                jsonDataLoop relations rest operationId fetchId validValue pickD acc := by
              simp [jsonDataLoop, htype, hc, higm]
            rw [hstep] at hok
            exact ih acc body hok hacc
          | false =>
            have hkn : k ≠ name := by
              intro hh
              subst hh
              rw [hign] at hig
              cases hig
            have higm : DVal.ignoreSentinel ∉ get_constrained_values relations k := by
              simpa using hig
            have hstep : jsonDataLoop relations ((k, JVal.obj vs) :: rest) operationId
                fetchId validValue pickD acc =
                jsonDataLoop relations rest operationId fetchId validValue pickD
                  (dSetKey k (pickD (get_constrained_values relations k)) acc) := by
              simp [jsonDataLoop, htype, hc, higm]
            rw [hstep] at hok
            exact ih _ body hok (dHasKey_dSetKey_false hkn hacc _)
        | true =>
          have hkn : k ≠ name := hkne hc
          cases hdep : get_dependent_id relations k operationId fetchId with
          | some depId =>
            cases hde : depId.isEmpty with
            | false =>
              have hstep : jsonDataLoop relations ((k, JVal.obj vs) :: rest) operationId
                  fetchId validValue pickD acc =
                  jsonDataLoop relations rest operationId fetchId validValue pickD
                    (dSetKey k (.json (.str depId)) acc) := by
                simp [jsonDataLoop, htype, hc, hdep, hde]
              rw [hstep] at hok
              exact ih _ body hok (dHasKey_dSetKey_false hkn hacc _)
            | true =>
              have hstep : jsonDataLoop relations ((k, JVal.obj vs) :: rest) operationId
                  fetchId validValue pickD acc =
                  jsonDataStepTail relations (k, JVal.obj vs) rest operationId fetchId
                    validValue pickD acc pt vs := by
                simp [jsonDataLoop, htype, hc, hdep, hde]
              rw [hstep] at hok
              obtain ⟨w, hok2⟩ := jsonDataStepTail_ok relations k (JVal.obj vs) rest
                operationId fetchId validValue pickD acc body pt vs hok
              exact ih _ body hok2 (dHasKey_dSetKey_false hkn hacc w)
          | none =>
            have hstep : jsonDataLoop relations ((k, JVal.obj vs) :: rest) operationId
                fetchId validValue pickD acc =
                jsonDataStepTail relations (k, JVal.obj vs) rest operationId fetchId
                  validValue pickD acc pt vs := by
              simp [jsonDataLoop, htype, hc, hdep]
            rw [hstep] at hok
            obtain ⟨w, hok2⟩ := jsonDataStepTail_ok relations k (JVal.obj vs) rest
              operationId fetchId validValue pickD acc body pt vs hok
            exact ih _ body hok2 (dHasKey_dSetKey_false hkn hacc w)
    | null =>
      have hstep : jsonDataLoop relations ((k, JVal.null) :: rest) operationId
          fetchId validValue pickD acc = .error "TypeError: value schema is not a dict" := by
        simp [jsonDataLoop]
      rw [hstep] at hok
      cases hok
    | bool b =>
      have hstep : jsonDataLoop relations ((k, JVal.bool b) :: rest) operationId
          fetchId validValue pickD acc = .error "TypeError: value schema is not a dict" := by
        simp [jsonDataLoop]
      rw [hstep] at hok
      cases hok
    | num n =>
      have hstep : jsonDataLoop relations ((k, JVal.num n) :: rest) operationId
          fetchId validValue pickD acc = .error "TypeError: value schema is not a dict" := by
        simp [jsonDataLoop]
      rw [hstep] at hok
      cases hok
    | str s =>
      have hstep : jsonDataLoop relations ((k, JVal.str s) :: rest) operationId
          fetchId validValue pickD acc = .error "TypeError: value schema is not a dict" := by
        simp [jsonDataLoop]
      rw [hstep] at hok
      cases hok
    | arr xs =>
      have hstep : jsonDataLoop relations ((k, JVal.arr xs) :: rest) operationId
          fetchId validValue pickD acc = .error "TypeError: value schema is not a dict" := by
        simp [jsonDataLoop]
      rw [hstep] at hok
      cases hok

/-- C9 counterexample: the executor variant (OpenapiExecutors.get_dto_data)
has no IGNORE check - with a PropertyValueConstraint whose values list is
exactly the IGNORE sentinel, the random choice is forced and the sentinel
is placed in the synthesized body under the property name, contrary to
the claim that IGNORE is never placed in the body. -/
theorem C9_counterexample :
    get_dto_data [.propertyValueConstraint "prop" [.ignoreSentinel] 422]
      (.obj [("properties", .obj [("prop", .obj [("type", .str "string")])])])
      (some "op") (fun _ => "id1") (fun _ => .str "v") pickHeadDVal =
      .ok [("prop", DVal.ignoreSentinel)] := by
  simp [get_dto_data, getDtoDataObj, dtoDataLoop, dtoDataStepTail,
    get_constrained_values, get_dependent_id, lookupKey, dSetKey, pickHeadDVal]

/-- C9 (amended): in the libcore variant
(OpenApiLibCore.get_json_data_for_dto_class) a property whose selected
constraint values contain the IGNORE sentinel is omitted from the
synthesized body entirely - its name never appears among the body keys;
the executor variant lacks this check (see the counterexample). -/
theorem C9_ignore_omitted_in_libcore (relations : List RelationR) (schema : JVal)
    (operationId : Option String) (fetchId : String → String)
    (validValue : JObj → JVal) (pickD : List DVal → DVal)
    (body : List (String × DVal)) (name : String)
    (hok : get_json_data_for_dto_class relations schema operationId fetchId
      validValue pickD = .ok body)
    (hign : (get_constrained_values relations name).contains DVal.ignoreSentinel = true) :
    dHasKey name body = false := by
  unfold get_json_data_for_dto_class at hok
  cases schema with
  | obj kvs =>
    unfold getJsonDataForDtoClassObj at hok
    cases hprops : lookupKey "properties" kvs with
    | none =>
      rw [hprops] at hok
      have h2 : (Except.ok ([] : List (String × DVal)) :
          Except String (List (String × DVal))) = .ok body := hok
      cases h2
      rfl
    | some v =>
      rw [hprops] at hok
      cases v with
      | obj props =>
        exact jsonDataLoop_keeps_ignored_out relations operationId fetchId validValue
          pickD name hign props [] body hok rfl
      | arr xs =>
        cases xs with
        | nil =>
          have h2 : (Except.ok ([] : List (String × DVal)) :
              Except String (List (String × DVal))) = .ok body := hok
          cases h2
          rfl
        | cons x rest => cases hok
      | null => cases hok
      | bool b => cases hok
      | num n => cases hok
      | str s => cases hok
  | null => cases hok
  | bool b => cases hok
  | num n => cases hok
  | str s => cases hok
  | arr xs => cases hok

/-- C9 witness: the libcore omission at the counterexample input - the
synthesized body is empty, so the constrained property name is absent. -/
theorem C9_witness :
    dHasKey "prop" ([] : List (String × DVal)) = false :=
  C9_ignore_omitted_in_libcore [.propertyValueConstraint "prop" [.ignoreSentinel] 422]
    (.obj [("properties", .obj [("prop", .obj [("type", .str "string")])])])
    (some "op") (fun _ => "id1") (fun _ => .str "v") pickHeadDVal [] "prop"
    (by simp [get_json_data_for_dto_class, getJsonDataForDtoClassObj, jsonDataLoop,
      jsonDataStepTail, get_constrained_values, get_dependent_id, lookupKey,
      dSetKey, pickHeadDVal])
    (by decide)

/-- Frame property of the maximum / constrained numeric tail: a successful
result only reassigns the property under consideration. -/
theorem invalidateNumericTail_frame (cn : List String) (pd props : JObj)
    (name : String) (fv : JVal) (r : JObj)
    (hok : invalidateNumericTail cn pd props name fv = some (.ok r)) :
    ∃ v, r = setKey name v props := by
  unfold invalidateNumericTail at hok
  repeat' split at hok
  all_goals (try simp at hok)
  all_goals repeat' split at hok
  all_goals (try simp at hok)
  all_goals first
    | exact ⟨_, hok.symm⟩
    | exact ⟨_, hok⟩
    | exact ⟨_, hok.2.symm⟩
    | exact ⟨_, hok.2⟩

/-- Frame property of the string branch: a successful result only
reassigns the property under consideration. -/
theorem invalidateStringTail_frame (pd props : JObj) (name : String)
    (currentValue : JVal) (rh : String) (r : JObj)
    (hok : invalidateStringTail pd props name currentValue rh = some (.ok r)) :
    ∃ v, r = setKey name v props := by
  unfold invalidateStringTail at hok
  repeat' split at hok
  all_goals (try simp at hok)
  all_goals repeat' split at hok
  all_goals (try simp at hok)
  all_goals first
    | exact ⟨_, hok.symm⟩
    | exact ⟨_, hok⟩
    | exact ⟨_, hok.2.symm⟩
    | exact ⟨_, hok.2⟩

/-- Frame property of one iteration of the property loop of
DtoBase.get_invalidated_data: whichever branch (enum, boolean, integer,
number or string) produces the invalidated data, it only reassigns the
property the iteration considers. -/
theorem invalidatePropertyStep_frame (cn : List String) (schema props : JObj)
    (name : String) (ri : Int) (rf : JVal) (rh : String) (r : JObj)
    (hok : invalidatePropertyStep cn schema props name ri rf rh = some (.ok r)) :
    ∃ v, r = setKey name v props := by
  unfold invalidatePropertyStep at hok
  repeat' split at hok
  all_goals (try simp at hok)
  all_goals repeat' split at hok
  all_goals (try simp at hok)
  all_goals first
    | exact ⟨_, hok.symm⟩
    | exact ⟨_, hok⟩
    | exact ⟨_, hok.2.symm⟩
    | exact ⟨_, hok.2⟩
    | exact invalidateNumericTail_frame cn _ props name _ r hok
    | exact invalidateStringTail_frame _ props name _ rh r hok

/-- Frame property of the IdDependency phase of
DtoBase.get_invalidated_data: a successful result reassigns exactly the
matching relation's property (to a random hex id). -/
theorem invalidateIdDependencyPhase_frame (relations : List RelationR)
    (properties : JObj) (sc : Int) (rh : String) (r : JObj)
    (hok : invalidateIdDependencyPhase relations properties sc rh = some (.ok r)) :
    ∃ p v, r = setKey p v properties := by
  induction relations with
  | nil => simp [invalidateIdDependencyPhase] at hok
  | cons rel rest ih =>
    cases rel with
    | idDependency p g o c =>
      by_cases hc : (c == sc) = true
      · have hstep : invalidateIdDependencyPhase (.idDependency p g o c :: rest)
            properties sc rh =
            (match lookupKey p properties with
             | some _ => some (.ok (setKey p (.str rh) properties))
             | none => some (.error "KeyError: no such property on the dto")) := by
          simp [invalidateIdDependencyPhase, hc]
        rw [hstep] at hok
        cases hlk : lookupKey p properties with
        | some v => rw [hlk] at hok; simp at hok; exact ⟨p, .str rh, hok.symm⟩
        | none => rw [hlk] at hok; simp at hok
      · have hstep : invalidateIdDependencyPhase (.idDependency p g o c :: rest)
            properties sc rh = invalidateIdDependencyPhase rest properties sc rh := by
          simp [invalidateIdDependencyPhase, hc]
        rw [hstep] at hok
        exact ih hok
    | pathPropertiesConstraint p c e =>
      exact ih (by simpa [invalidateIdDependencyPhase] using hok)
    | propertyValueConstraint p vs e =>
      exact ih (by simpa [invalidateIdDependencyPhase] using hok)
    | idReference p pp e =>
      exact ih (by simpa [invalidateIdDependencyPhase] using hok)
    | uniquePropertyValueConstraint p v e =>
      exact ih (by simpa [invalidateIdDependencyPhase] using hok)

/-- Frame property of the whole property loop of
DtoBase.get_invalidated_data: a successful result reassigns exactly one
property (the first one in the shuffled order whose branch fires). -/
theorem invalidatePropertyLoop_frame (cn : List String) (schema props : JObj)
    (order : List String) (ri : Int) (rf : JVal) (rh : String) (r : JObj)
    (hok : invalidatePropertyLoop cn schema props order ri rf rh = some (.ok r)) :
    ∃ p v, r = setKey p v props := by
  induction order with
  | nil => simp [invalidatePropertyLoop] at hok
  | cons name rest ih =>
    cases hstep : invalidatePropertyStep cn schema props name ri rf rh with
    | some res =>
      have h2 : some res = some (Except.ok r) := by
        have h3 : invalidatePropertyLoop cn schema props (name :: rest) ri rf rh
            = some res := by
          simp [invalidatePropertyLoop, hstep]
        rw [h3] at hok; exact hok
      have h4 : res = Except.ok r := by simpa using h2
      subst h4
      obtain ⟨v, hv⟩ := invalidatePropertyStep_frame cn schema props name ri rf rh r hstep
      exact ⟨name, v, hv⟩
    | none =>
      have h2 : invalidatePropertyLoop cn schema props rest ri rf rh
          = some (Except.ok r) := by
        have h3 : invalidatePropertyLoop cn schema props (name :: rest) ri rf rh
            = invalidatePropertyLoop cn schema props rest ri rf rh := by
          simp [invalidatePropertyLoop, hstep]
        rw [h3] at hok; exact hok
      exact ih h2

/-- C2 counterexample: when no relation matches and no property has a
violable constraint (here two plain string properties with no bounds),
get_invalidated_data falls through to the final fallback and changes the
data type of EVERY schema property, not exactly one: both "a" and "b"
differ from their last-valid values in the result. -/
theorem C2_counterexample :
    get_invalidated_data [] [("a", .str "x"), ("b", .str "y")] ["a", "b"]
      [("properties", .obj [("a", .obj [("type", .str "string")]),
        ("b", .obj [("type", .str "string")])])] 422 0 (.num 0) "deadbeef"
      = .ok [("a", .arr [.obj [("invalid", .arr [.null])]]),
             ("b", .arr [.obj [("invalid", .arr [.null])]])] ∧
    lookupKey "a" [("a", JVal.str "x"), ("b", JVal.str "y")] ≠
      lookupKey "a" [("a", JVal.arr [.obj [("invalid", .arr [.null])]]),
             ("b", JVal.arr [.obj [("invalid", .arr [.null])]])] ∧
    lookupKey "b" [("a", JVal.str "x"), ("b", JVal.str "y")] ≠
      lookupKey "b" [("a", JVal.arr [.obj [("invalid", .arr [.null])]]),
             ("b", JVal.arr [.obj [("invalid", .arr [.null])]])] := by
  decide

/-- C2 (amended): whenever the IdDependency phase or the per-property
constraint loop of get_invalidated_data produces the invalidated data
(rather than the final change-all-types fallback), the returned mapping
is setKey of a single property over the valid body: every other property
keeps its last-valid value. -/
theorem C2_single_property_frame (relations : List RelationR)
    (properties schema : JObj) (order : List String) (statusCode randInt : Int)
    (randFloat : JVal) (randHex : String) (r : JObj)
    (h : invalidateIdDependencyPhase relations properties statusCode randHex
        = some (.ok r)
      ∨ (invalidateIdDependencyPhase relations properties statusCode randHex = none ∧
         invalidatePropertyLoop (constrainedPropertyNames relations) schema properties
           order randInt randFloat randHex = some (.ok r))) :
    get_invalidated_data relations properties order schema statusCode randInt
      randFloat randHex = .ok r ∧ ∃ p v, r = setKey p v properties := by
  rcases h with h | ⟨hid, hloop⟩
  · exact ⟨by simp [get_invalidated_data, h],
      invalidateIdDependencyPhase_frame relations properties statusCode randHex r h⟩
  · exact ⟨by simp [get_invalidated_data, hid, hloop],
      invalidatePropertyLoop_frame _ schema properties order randInt randFloat randHex r hloop⟩

/-- C2 witness: an integer property with a truthy minimum is set to
minimum - 1 and the other property keeps its value. -/
theorem C2_witness :
    get_invalidated_data [] [("a", .num 5), ("b", .num 7)] ["a"]
      [("properties", .obj [("a", .obj [("type", .str "integer"), ("minimum", .num 3)]),
        ("b", .obj [("type", .str "integer")])])] 422 0 (.num 0) "x"
      = .ok [("a", .num 2), ("b", .num 7)] ∧
    ∃ p v, ([("a", JVal.num 2), ("b", JVal.num 7)] : JObj) =
      setKey p v [("a", .num 5), ("b", .num 7)] :=
  C2_single_property_frame [] [("a", .num 5), ("b", .num 7)]
    [("properties", .obj [("a", .obj [("type", .str "integer"), ("minimum", .num 3)]),
      ("b", .obj [("type", .str "integer")])])] ["a"] 422 0 (.num 0) "x"
    [("a", .num 2), ("b", .num 7)] (Or.inr ⟨by decide, by decide⟩)
